import Mathlib

/-!
Shallow embedding of `smart-email-responder/smart_email_responder.py`.

Python strings are modelled as `List Char` (`PyStr`); Python values that
come out of `json.loads` as the inductive `PyObj`; datetimes as a record
of a day count (day 0 is a Monday) together with hour and minute.
External services (the OpenAI chat completion, the Gmail REST API, the
Google Calendar REST API, `dateutil.parser.parse`, `json.loads`,
base64 decoding) are passed in as `Except`-valued function parameters:
`.error ()` models the call raising an exception.
-/

/-- Python `str`, modelled as a list of characters. -/
abbrev PyStr := List Char

namespace Py

/-- Python truthiness of a string: non-empty. -/
def strTruthy (s : PyStr) : Bool := !s.isEmpty

/-- Python `str.lower()` (ASCII model). -/
def lower (s : PyStr) : PyStr := s.map Char.toLower

/-- Python `c in s` for a single character. -/
def hasChar (s : PyStr) (c : Char) : Bool := s.contains c

/-- Python `sub in s` for a substring. -/
def hasSub (sub s : PyStr) : Bool := s.tails.any (fun t => sub.isPrefixOf t)

/-- Python `s.startswith(p)`. -/
def startswith (s p : PyStr) : Bool := p.isPrefixOf s

/-- Whitespace test used by `str.strip()`. -/
def isSpaceChar (c : Char) : Bool := c = ' ' ∨ c = '\t' ∨ c = '\n' ∨ c = '\r'

/-- Python `s.strip()`: drop leading and trailing whitespace. -/
def strip (s : PyStr) : PyStr :=
  ((s.dropWhile isSpaceChar).reverse.dropWhile isSpaceChar).reverse

/-- Python `s.strip(chars)` for one strip character. -/
def stripChar (s : PyStr) (c : Char) : PyStr :=
  ((s.dropWhile (· = c)).reverse.dropWhile (· = c)).reverse

/-- Recursion core of `replace`, structural in a fuel argument so the
kernel can evaluate it; `fuel = s.length` always suffices (the pattern is
non-empty at every recursive call, so each step consumes at least one
character) and the fuel-exhausted branch is never reached from `replace`. -/
def replaceFuel : Nat → PyStr → PyStr → PyStr → PyStr
  | _, [], _, _ => []
  | 0, s, _, _ => s
  | fuel + 1, c :: rest, pat, rep =>
    if pat ≠ [] ∧ pat.isPrefixOf (c :: rest) then
      rep ++ replaceFuel fuel ((c :: rest).drop pat.length) pat rep
    else
      c :: replaceFuel fuel rest pat rep

/-- Python `s.replace(pat, rep)` for a non-empty pattern: non-overlapping
left-to-right replacement.  (An empty pattern returns `s` unchanged; the
source never calls `replace` with an empty pattern.) -/
def replace (s pat rep : PyStr) : PyStr := replaceFuel s.length s pat rep

/-- Recursion core of `split`, structural in a fuel argument so the
kernel can evaluate it; `fuel = s.length` always suffices and the
fuel-exhausted branch is never reached from `split`. -/
def splitFuel : Nat → PyStr → PyStr → List PyStr
  | _, [], _ => [[]]
  | 0, s, _ => [s]
  | fuel + 1, c :: rest, sep =>
    if sep ≠ [] ∧ sep.isPrefixOf (c :: rest) then
      [] :: splitFuel fuel ((c :: rest).drop sep.length) sep
    else
      match splitFuel fuel rest sep with
      | [] => [[c]]
      | chunk :: chunks => (c :: chunk) :: chunks

/-- Python `s.split(sep)` for a non-empty separator: the list of chunks
between non-overlapping occurrences of `sep`. -/
def split (s sep : PyStr) : List PyStr := splitFuel s.length s sep

/-- Python list indexing `l[i]`, raising `IndexError` when out of range. -/
def index {α : Type} (l : List α) (i : Nat) : Except Unit α :=
  match l.get? i with
  | some a => .ok a
  | none => .error ()

/-- Python `l[0]` (`raises on empty`). -/
def first {α : Type} (l : List α) : Except Unit α := index l 0

/-- Python `l[-1]` (`raises on empty`). -/
def last {α : Type} (l : List α) : Except Unit α :=
  match l.getLast? with
  | some a => .ok a
  | none => .error ()

/-- Decimal digit test. -/
def isDigitChar (c : Char) : Bool := '0' ≤ c ∧ c ≤ '9'

/-- Value of a digit list (most significant first). -/
def digitsVal (l : PyStr) : Nat :=
  l.foldl (fun acc c => acc * 10 + (c.toNat - '0'.toNat)) 0

/-- Python `int(s)`: optional surrounding whitespace, optional sign,
then a non-empty run of decimal digits; anything else raises. -/
def int (s : PyStr) : Except Unit Int :=
  let t := strip s
  match t with
  | '-' :: ds =>
    if ds ≠ [] ∧ ds.all isDigitChar then .ok (-(digitsVal ds : Int)) else .error ()
  | '+' :: ds =>
    if ds ≠ [] ∧ ds.all isDigitChar then .ok (digitsVal ds : Int) else .error ()
  | ds =>
    if ds ≠ [] ∧ ds.all isDigitChar then .ok (digitsVal ds : Int) else .error ()

/-- Python `str.title()` (ASCII model): the first letter of every
maximal alphabetic run is uppercased, the rest are lowercased. -/
def titleGo (prevAlpha : Bool) : PyStr → PyStr
  | [] => []
  | c :: rest =>
    if c.isAlpha then
      (if prevAlpha then c.toLower else c.toUpper) :: titleGo true rest
    else
      c :: titleGo false rest

/-- Python `s.title()`. -/
def title (s : PyStr) : PyStr := titleGo false s

end Py

/-!
## Python values produced by `json.loads`

Dataclass fields in the source carry type annotations but Python does not
enforce them, so the embedded records store raw `PyObj` values.
-/

/-- A Python value as produced by `json.loads` (JSON numbers are modelled
as integers; no claim involves fractional numbers). -/
inductive PyObj where
  | none
  | bool (b : Bool)
  | num (n : Int)
  | str (s : PyStr)
  | list (xs : List PyObj)
  | dict (kvs : List (PyStr × PyObj))

namespace PyObj

/-- Python truthiness. -/
def truthy : PyObj → Bool
  | .none => false
  | .bool b => b
  | .num n => n ≠ 0
  | .str s => !s.isEmpty
  | .list xs => !xs.isEmpty
  | .dict kvs => !kvs.isEmpty

/-- Truthiness of the result of `d.get(k)` (Python `None` when absent). -/
def optTruthy : Option PyObj → Bool
  | Option.none => false
  | Option.some v => v.truthy

/-- `d[k]`: raises unless `d` is a dict containing `k`. -/
def getItem (o : PyObj) (k : PyStr) : Except Unit PyObj :=
  match o with
  | .dict kvs =>
    match kvs.lookup k with
    | Option.some v => .ok v
    | Option.none => .error ()
  | _ => .error ()

/-- `d.get(k)`: `None` when absent; raises unless `d` is a dict. -/
def get (o : PyObj) (k : PyStr) : Except Unit (Option PyObj) :=
  match o with
  | .dict kvs => .ok (kvs.lookup k)
  | _ => .error ()

/-- `d.get(k, dflt)`: raises unless `d` is a dict. -/
def getD (o : PyObj) (k : PyStr) (dflt : PyObj) : Except Unit PyObj :=
  match o with
  | .dict kvs => .ok ((kvs.lookup k).getD dflt)
  | _ => .error ()

/-- Using a value where a `str` method is called on it: raises a
`TypeError`/`AttributeError` unless it is a string. -/
def asStr : PyObj → Except Unit PyStr
  | .str s => .ok s
  | _ => .error ()

/-- Using a value in an integer position (`timedelta(minutes=_)`,
arithmetic): Python `bool` is an `int` subtype; anything else raises. -/
def asInt : PyObj → Except Unit Int
  | .num n => .ok n
  | .bool b => .ok (if b then 1 else 0)
  | _ => .error ()

/-- Iterating a value in a `for` loop: modelled for lists only (the
source iterates `meeting_request.attendees`; other iterables are not
modelled and raise here). -/
def asList : PyObj → Except Unit (List PyObj)
  | .list xs => .ok xs
  | _ => .error ()

end PyObj

/-- The `Option PyObj` result of a defaultless `.get` stored into a
dataclass field: Python `None` when absent. -/
def optToObj : Option PyObj → PyObj
  | Option.none => .none
  | Option.some v => v

/-- The `MeetingRequest` dataclass (fields hold the raw parsed values). -/
structure MeetingRequest where
  purpose : PyObj
  preferred_date : PyObj
  preferred_time : PyObj
  duration_minutes : PyObj
  attendees : PyObj

/-- The `EmailAnalysis` dataclass (fields hold the raw parsed values). -/
structure EmailAnalysis where
  needs_response : PyObj
  response_priority : PyObj
  email_type : PyObj
  reasoning : PyObj
  suggested_response : PyObj
  meeting_request : Option MeetingRequest := Option.none

/-!
## Datetimes

A datetime is a day count (day 0 = 2001-01-01, a Monday) with an hour and
a minute; seconds and microseconds never influence any claim and after the
source's `replace(second=0, microsecond=0)` calls they are zero anyway.
-/

/-- A Python `datetime`, truncated to minute precision. -/
structure DateTime where
  day : Int
  hour : Nat
  minute : Nat
deriving DecidableEq, Repr

/-- `datetime.weekday()`: 0 = Monday. -/
def weekday (dt : DateTime) : Nat := (dt.day % 7).toNat

/-- `dt + timedelta(days=k)`. -/
def addDays (dt : DateTime) (k : Int) : DateTime := { dt with day := dt.day + k }

/-- Minutes since epoch midnight. -/
def toTotalMinutes (dt : DateTime) : Int :=
  dt.day * 1440 + dt.hour * 60 + dt.minute

/-- Datetime from minutes since epoch midnight. -/
def ofTotalMinutes (t : Int) : DateTime :=
  { day := t.fdiv 1440, hour := (t.fmod 1440).toNat / 60, minute := (t.fmod 1440).toNat % 60 }

/-- `dt + timedelta(minutes=k)`. -/
def addMinutes (dt : DateTime) (k : Int) : DateTime :=
  ofTotalMinutes (toTotalMinutes dt + k)

/-- `dt.replace(hour=h, minute=m, second=0, microsecond=0)` with in-range
constant arguments (a total field update). -/
def setHM (dt : DateTime) (h m : Nat) : DateTime := { dt with hour := h, minute := m }

/-- `dt.replace(hour=h, minute=m, second=0, microsecond=0)` for computed
arguments: raises `ValueError` out of range. -/
def replaceHM (dt : DateTime) (h m : Int) : Except Unit DateTime :=
  if 0 ≤ h ∧ h < 24 ∧ 0 ≤ m ∧ m < 60 then .ok (setHM dt h.toNat m.toNat)
  else .error ()

/-- Civil date (year, month, day-of-month) of a day count
(days-from-civil algorithm, era of 400 years). -/
def civilFromDay (d : Int) : Int × Nat × Nat :=
  let z := d + 730791
  let era := z.fdiv 146097
  let doe := (z - era * 146097).toNat
  let yoe := (doe - doe / 1460 + doe / 36524 - doe / 146096) / 365
  let y := (yoe : Int) + era * 400
  let doy := doe - (365 * yoe + yoe / 4 - yoe / 100)
  let mp := (5 * doy + 2) / 153
  let dd := doy - (153 * mp + 2) / 5 + 1
  let m := if mp < 10 then mp + 3 else mp - 9
  (y + (if m ≤ 2 then 1 else 0), m, dd)

/-- Decimal rendering of a natural number. -/
def natToStr (n : Nat) : PyStr := (Nat.repr n).toList

/-- Decimal rendering of an integer. -/
def intToStr (i : Int) : PyStr :=
  if i < 0 then '-' :: natToStr i.natAbs else natToStr i.natAbs

/-- Two-digit zero-padded rendering (`%d`, `%I`, `%M`). -/
def pad2 (n : Nat) : PyStr := if n < 10 then '0' :: natToStr n else natToStr n

/-- `%B`: full month name. -/
def monthName (m : Nat) : PyStr :=
  (match m with
   | 1 => "January" | 2 => "February" | 3 => "March" | 4 => "April"
   | 5 => "May" | 6 => "June" | 7 => "July" | 8 => "August"
   | 9 => "September" | 10 => "October" | 11 => "November" | 12 => "December"
   | _ => "").toList

/-- `dt.strftime('%B %d, %Y at %I:%M %p')`. -/
def strftimeLong (dt : DateTime) : PyStr :=
  let c := civilFromDay dt.day
  let h12 := if dt.hour % 12 = 0 then 12 else dt.hour % 12
  let ampm := if dt.hour < 12 then "AM".toList else "PM".toList
  monthName c.2.1 ++ " ".toList ++ pad2 c.2.2 ++ ", ".toList ++ intToStr c.1 ++
    " at ".toList ++ pad2 h12 ++ ":".toList ++ pad2 dt.minute ++ " ".toList ++ ampm

/-!
## `get_unread_emails` and `_extract_body`

The Gmail API is abstracted: `listMsgs` is the `messages().list` call
(`.ok` carries the `messages` entry of the response, `None` when the key
is absent), `getMsg` is `messages().get` for a given id, and `b64` is
`base64.urlsafe_b64decode(..).decode('utf-8')`.
-/

/-- The email record built by `get_unread_emails` (exactly the six keys
of the dict literal in the source). -/
structure Email where
  id : PyStr
  subject : PyStr
  sender : PyStr
  date : PyStr
  body : PyStr
  thread_id : Option PyStr

/-- The `body` entry of a payload or part (`data` may be absent). -/
structure BodyData where
  data : Option PyStr

/-- One entry of `payload['parts']`. -/
structure MsgPart where
  mimeType : PyStr
  body : BodyData

/-- `email_data['payload']`. -/
structure Payload where
  headers : Option (List (PyStr × PyStr))
  mimeType : PyStr
  body : BodyData
  parts : Option (List MsgPart)

/-- A `messages().get` response. -/
structure EmailData where
  payload : Payload
  threadId : Option PyStr

/-- The `for part in payload['parts']` loop of `_extract_body`: decode
the first `text/plain` part, keep `''` when there is none; a part whose
`body` lacks `data` raises `KeyError`. -/
def extractFromParts (b64 : PyStr → PyStr) : List MsgPart → Except Unit PyStr
  | [] => .ok []
  | p :: ps =>
    if p.mimeType = "text/plain".toList then
      match p.body.data with
      | Option.some d => .ok (b64 d)
      | Option.none => .error ()
    else extractFromParts b64 ps

/-- `_extract_body`. -/
def _extract_body (b64 : PyStr → PyStr) (payload : Payload) : Except Unit PyStr :=
  match payload.parts with
  | Option.some parts => extractFromParts b64 parts
  | Option.none =>
    if payload.mimeType = "text/plain".toList then
      match payload.body.data with
      | Option.some d => .ok (b64 d)
      | Option.none => .error ()
    else .ok []

/-- `next((h['value'] for h in headers if h['name'] == n), '')`. -/
def headerValue (headers : List (PyStr × PyStr)) (n : PyStr) : PyStr :=
  match headers.find? (fun h => h.1 = n) with
  | Option.some h => h.2
  | Option.none => []

/-- The per-message body of the loop in `get_unread_emails`: build the
email dict from one `messages().get` response. -/
def buildEmail (b64 : PyStr → PyStr) (mid : PyStr) (ed : EmailData) : Except Unit Email := do
  let headers := ed.payload.headers.getD []
  let body ← _extract_body b64 ed.payload
  pure { id := mid
         subject := headerValue headers ("Subject".toList)
         sender := headerValue headers ("From".toList)
         date := headerValue headers ("Date".toList)
         body := body
         thread_id := ed.threadId }

/-- The `try` body of `get_unread_emails`. -/
def getUnreadInner (listMsgs : Except Unit (Option (List PyStr)))
    (getMsg : PyStr → Except Unit EmailData) (b64 : PyStr → PyStr) :
    Except Unit (List Email) := do
  let msgs := (← listMsgs).getD []
  msgs.mapM (fun mid => do buildEmail b64 mid (← getMsg mid))

/-- `get_unread_emails`: any exception yields the empty list. -/
def get_unread_emails (listMsgs : Except Unit (Option (List PyStr)))
    (getMsg : PyStr → Except Unit EmailData) (b64 : PyStr → PyStr) : List Email :=
  match getUnreadInner listMsgs getMsg b64 with
  | .ok emails => emails
  | .error _ => []

/-!
## `analyze_email_with_reasoning`

`llmResp` is the result of the chat-completion call for the given email
(`.ok` carries `response.choices[0].message.content`); `jsonLoads` is
`json.loads`.  The prompt built from the email is inert text consumed
only by the external model, so the response is taken as the input.
-/

/-- Lines 237–246 of the source: build the optional `MeetingRequest`
from the parsed reply. -/
def extractMeetingRequest (result : PyObj) : Except Unit (Option MeetingRequest) := do
  let mrField ← result.getD ("meeting_request".toList) (.dict [])
  let hasMr ← mrField.get ("has_meeting_request".toList)
  if PyObj.optTruthy hasMr then do
    let meeting_data ← result.getItem ("meeting_request".toList)
    let purpose ← meeting_data.getD ("purpose".toList) (.str [])
    let pd ← meeting_data.get ("preferred_date".toList)
    let pt ← meeting_data.get ("preferred_time".toList)
    let dm ← meeting_data.getD ("duration_minutes".toList) (.num 30)
    let att ← meeting_data.getD ("attendees".toList) (.list [])
    pure (Option.some
      { purpose := purpose
        preferred_date := optToObj pd
        preferred_time := optToObj pt
        duration_minutes := dm
        attendees := att })
  else
    pure Option.none

/-- Lines 227–233 of the source: strip the response, then strip a
markdown fence when present. -/
def fenceStripped (content : PyStr) : Except Unit PyStr := do
  let response_text := Py.strip content
  if Py.startswith response_text ("```json".toList) then do
    let a ← Py.index (Py.split response_text ("```json".toList)) 1
    let b ← Py.first (Py.split a ("```".toList))
    pure (Py.strip b)
  else if Py.startswith response_text ("```".toList) then do
    let a ← Py.index (Py.split response_text ("```".toList)) 1
    let b ← Py.first (Py.split a ("```".toList))
    pure (Py.strip b)
  else
    pure response_text

/-- The `try` body of `analyze_email_with_reasoning`: strip markdown
fences, parse the JSON, build the analysis. -/
def analyzeInner (llmResp : Except Unit PyStr)
    (jsonLoads : PyStr → Except Unit PyObj) : Except Unit EmailAnalysis := do
  let content ← llmResp
  let response_text ← fenceStripped content
  let result ← jsonLoads response_text
  let meeting_request ← extractMeetingRequest result
  let nr ← result.getItem ("needs_response".toList)
  let rp ← result.getItem ("response_priority".toList)
  let et ← result.getItem ("email_type".toList)
  let rs ← result.getItem ("reasoning".toList)
  let sr ← result.getItem ("suggested_response".toList)
  pure { needs_response := nr
         response_priority := rp
         email_type := et
         reasoning := rs
         suggested_response := sr
         meeting_request := meeting_request }

/-- The fallback `EmailAnalysis` of the `except` branch. -/
def errorAnalysis : EmailAnalysis :=
  { needs_response := .bool false
    response_priority := .str ("low".toList)
    email_type := .str ("unknown".toList)
    reasoning := .str ("Error in analysis".toList)
    suggested_response := .str []
    meeting_request := Option.none }

/-- `analyze_email_with_reasoning`. -/
def analyze_email_with_reasoning (llmResp : Except Unit PyStr)
    (jsonLoads : PyStr → Except Unit PyObj) : EmailAnalysis :=
  match analyzeInner llmResp jsonLoads with
  | .ok a => a
  | .error _ => errorAnalysis

/-!
## Calendar availability

`listing` abstracts `calendar_service.events().list(timeMin, timeMax)`;
`.ok` carries the `items` of the response (events are opaque).
-/

/-- The `events().list` call, given `timeMin` and `timeMax`. -/
abbrev CalListing := DateTime → DateTime → Except Unit (List Unit)

/-- `self.working_hours['days']`. -/
def workingDays : List Nat := [0, 1, 2, 3, 4]

/-- `_is_time_slot_free`: `True` exactly when the listing succeeds with
no items; any exception yields `False`. -/
def _is_time_slot_free (listing : CalListing) (dt : DateTime)
    (duration_minutes : PyObj) : Bool :=
  match (do
      let d ← duration_minutes.asInt
      listing dt (addMinutes dt d)) with
  | .ok items => items.length = 0
  | .error _ => false

/-- The first loop of `_suggest_alternative_times` (same-day hours),
returning from inside the loop once two slots are found. -/
def scanHours (listing : CalListing) (dur : PyObj) (base : Int) :
    List Nat → List DateTime → List DateTime
  | [], acc => acc
  | h :: hs, acc =>
    let alt_dt : DateTime := ⟨base, h, 0⟩
    if _is_time_slot_free listing alt_dt dur then
      let acc' := acc ++ [alt_dt]
      if 2 ≤ acc'.length then acc' else scanHours listing dur base hs acc'
    else scanHours listing dur base hs acc

/-- The second loop of `_suggest_alternative_times` (next seven days at
14:00, business days only), breaking once two slots are found. -/
def scanDays (listing : CalListing) (dur : PyObj) (base : Int) :
    List Nat → List DateTime → List DateTime
  | [], acc => acc
  | k :: ks, acc =>
    let next_dt : DateTime := ⟨base + k, 14, 0⟩
    if weekday next_dt ∈ workingDays ∧ _is_time_slot_free listing next_dt dur then
      let acc' := acc ++ [next_dt]
      if 2 ≤ acc'.length then acc' else scanDays listing dur base ks acc'
    else scanDays listing dur base ks acc

/-- `_suggest_alternative_times`. -/
def _suggest_alternative_times (listing : CalListing) (requested_dt : DateTime)
    (duration_minutes : PyObj) : List DateTime :=
  let base := requested_dt.day
  let alts := scanHours listing duration_minutes base [10, 11, 14, 15, 16] []
  if 2 ≤ alts.length then alts
  else (scanDays listing duration_minutes base [1, 2, 3, 4, 5, 6, 7] alts).take 2

/-- `check_calendar_availability_dt`: `(True, [])` when the listing for
the requested slot has no items, `(False, alternatives)` when it has
some, `(False, [])` on any exception. -/
def check_calendar_availability_dt (listing : CalListing)
    (requested_dt : DateTime) (duration_minutes : PyObj) : Bool × List DateTime :=
  match (do
      let d ← duration_minutes.asInt
      let events ← listing requested_dt (addMinutes requested_dt d)
      if events.length = 0 then
        pure (true, ([] : List DateTime))
      else
        pure (false, _suggest_alternative_times listing requested_dt duration_minutes)) with
  | .ok r => r
  | .error _ => (false, [])

/-- Termination measure for the `while True` of `_get_next_business_day`:
number of remaining non-business days from the current weekday. -/
def nbdSteps (w : Int) : Nat := if w = 5 then 2 else if w = 6 then 1 else 0

/-- The `while True` loop of `_get_next_business_day` (provably
terminating: from a Saturday or Sunday the weekday reaches Monday in at
most two further steps). -/
def nextBusinessDayLoop (today : DateTime) (daysAhead : Nat) : DateTime :=
  if h : weekday { today with day := today.day + daysAhead } ∈ workingDays then
    { today with day := today.day + daysAhead }
  else nextBusinessDayLoop today (daysAhead + 1)
termination_by nbdSteps ((today.day + daysAhead) % 7)
decreasing_by
  simp only [weekday, workingDays, List.mem_cons, List.not_mem_nil, or_false] at h
  push_neg at h
  simp only [nbdSteps]
  have h0 : (0:Int) ≤ (today.day + daysAhead) % 7 := Int.emod_nonneg _ (by norm_num)
  obtain ⟨h1, h2, h3, h4, h5⟩ := h
  split_ifs <;> omega

/-- `_get_next_business_day` (the loop starts at `days_ahead = 1`). -/
def _get_next_business_day (today : DateTime) : DateTime :=
  nextBusinessDayLoop today 1

/-- `check_calendar_availability` (legacy): parse `"{date} {time}"` with
`dateutil`, default to the next business day at 14:00 when either part
is missing; any exception yields `(False, [])`. -/
def check_calendar_availability (now : DateTime)
    (dparse : PyStr → Except Unit DateTime) (listing : CalListing)
    (date_str time_str : PyStr) (duration_minutes : PyObj) : Bool × List DateTime :=
  match (do
      let requested_dt ←
        if Py.strTruthy date_str ∧ Py.strTruthy time_str then
          dparse (date_str ++ [' '] ++ time_str)
        else
          pure (setHM (_get_next_business_day now) 14 0)
      pure (check_calendar_availability_dt listing requested_dt duration_minutes)) with
  | .ok r => r
  | .error _ => (false, [])

/-!
## `create_meeting_if_available` and helpers
-/

/-- The apostrophe character (kept out of string literals). -/
def apos : Char := '\''

/-- The bullet character `U+2022` used in the alternatives text. -/
def bulletChar : Char := Char.ofNat 0x2022

/-- Python `str(v)` as used in f-strings.  Container reprs are
abbreviated: no claim ever inspects them. -/
def pyStrOf : PyObj → PyStr
  | .none => "None".toList
  | .bool b => (if b then "True" else "False").toList
  | .num n => intToStr n
  | .str s => s
  | .list _ => "<list>".toList
  | .dict _ => "<dict>".toList

/-- Python `str(v)` for an optional string (f-string on a parameter that
defaults to `None`). -/
def strOfOpt : Option PyStr → PyStr
  | Option.none => "None".toList
  | Option.some s => s

/-- `sender_email.split('<')[-1].replace('>', '').strip()`. -/
def cleanAddress (sender_email : PyStr) : PyStr :=
  Py.strip (Py.replace ((Py.split sender_email ("<".toList)).getLastD [])
    (">".toList) [])

/-- `_extract_sender_name`. -/
def _extract_sender_name (sender_email : PyStr) : PyStr :=
  let name_part := Py.strip ((Py.split sender_email ("<".toList)).headI)
  if Py.hasChar sender_email '<' ∧ Py.strTruthy name_part then
    name_part
  else
    let email_part := cleanAddress sender_email
    let username := (Py.split email_part ("@".toList)).headI
    Py.title (Py.replace (Py.replace username (".".toList) [' ']) ("_".toList) [' '])

/-- Recursion core of `splitWS`, structural in a fuel argument so the
kernel can evaluate it; `fuel = s.length` always suffices. -/
def splitWSFuel : Nat → PyStr → List PyStr
  | _, [] => []
  | 0, s => [s]
  | fuel + 1, c :: rest =>
    if Py.isSpaceChar c then splitWSFuel fuel rest
    else (c :: rest.takeWhile (fun x => !Py.isSpaceChar x)) ::
      splitWSFuel fuel (rest.dropWhile (fun x => !Py.isSpaceChar x))

/-- Python `s.split()` (split on whitespace runs, no empty chunks). -/
def splitWS (s : PyStr) : List PyStr := splitWSFuel s.length s

/-- The `vague_subjects` list of `_generate_meeting_subject`. -/
def vagueSubjects : List PyStr :=
  ["meeting".toList, "send meeting invite".toList, "calendar invite".toList,
   "schedule meeting".toList, "let".toList ++ [apos] ++ "s meet".toList,
   "meeting request".toList, "invitation".toList, "catch up".toList,
   "chat".toList, "quick call".toList, "sync".toList, "touch base".toList,
   "follow up".toList, "let".toList ++ [apos] ++ "s schedule".toList,
   "schedule a call".toList, "call".toList, "discussion".toList,
   "talk".toList, "connect".toList]

/-- Steps 3 and 4 of `_generate_meeting_subject`: derive a subject from
the email body via the model, else fall back to the sender-based form.
`llmTopic` abstracts the second chat-completion call (applied to
`email_body[:500]`). -/
def subjectFromBody (llmTopic : PyStr → Except Unit PyStr)
    (sender_email : PyStr) (email_body : Option PyStr) : Except Unit PyStr := do
  let viaBody : Option PyStr :=
    match email_body with
    | Option.some eb =>
      if Py.strTruthy eb ∧ 20 < (Py.strip eb).length then
        match llmTopic (eb.take 500) with
        | .ok b0 =>
          let body_subject := Py.stripChar (Py.strip b0) '"'
          if Py.strTruthy body_subject ∧ 5 < body_subject.length then
            Option.some body_subject
          else Option.none
        | .error _ => Option.none
      else Option.none
    | Option.none => Option.none
  match viaBody with
  | Option.some s => pure s
  | Option.none => do
    let sender_name := _extract_sender_name sender_email
    let sender_first_name ←
      if Py.strTruthy sender_name then Py.first (splitWS sender_name)
      else pure ("Guest".toList)
    pure ("Meeting with ".toList ++ sender_first_name)

/-- `_generate_meeting_subject`.  `llmTitle` abstracts the first
chat-completion call (applied to the stripped purpose); its prompt text
is inert and consumed only by the external model. -/
def _generate_meeting_subject (llmTitle llmTopic : PyStr → Except Unit PyStr)
    (mr : MeetingRequest) (sender_email : PyStr)
    (email_subject email_body : Option PyStr) : Except Unit PyStr := do
  let step1 : Option PyStr :=
    match email_subject with
    | Option.some es =>
      if Py.strTruthy es ∧ 5 < (Py.strip es).length then
        let subject := Py.strip es
        let subject :=
          if Py.startswith (Py.lower subject) ("re:".toList) then
            Py.strip (subject.drop 3)
          else subject
        if vagueSubjects.any (fun v => Py.hasSub (Py.lower v) (Py.lower subject)) then
          Option.none
        else Option.some subject
      else Option.none
    | Option.none => Option.none
  match step1 with
  | Option.some s => pure s
  | Option.none =>
    if mr.purpose.truthy then do
      let p ← mr.purpose.asStr
      if 10 < (Py.strip p).length then
        let purpose := Py.strip p
        match llmTitle purpose with
        | .ok ai0 =>
          let ai_subject := Py.stripChar (Py.strip ai0) '"'
          if Py.strTruthy ai_subject ∧ 5 < ai_subject.length then pure ai_subject
          else subjectFromBody llmTopic sender_email email_body
        | .error _ =>
          if Py.startswith (Py.lower purpose) ("meeting".toList) then pure purpose
          else pure ("Meeting: ".toList ++ purpose)
      else subjectFromBody llmTopic sender_email email_body
    else subjectFromBody llmTopic sender_email email_body

/-- The time parsing of the `"tomorrow"` branch of
`create_meeting_if_available` (lines 383–401): hour and minute from the
preferred-time string. -/
def parseTomorrowTime (preferred_time : PyStr) : Except Unit (Int × Int) := do
  let time_str := Py.replace (Py.lower preferred_time) (" ".toList) []
  if Py.hasSub ("pm".toList) time_str then do
    let time_str := Py.replace time_str ("pm".toList) []
    let hour ← Py.int (← Py.first (Py.split time_str (":".toList)))
    let hour := if hour ≠ 12 then hour + 12 else hour
    let minute ←
      if Py.hasSub (":".toList) time_str then
        Py.int (← Py.index (Py.split time_str (":".toList)) 1)
      else pure 0
    pure (hour, minute)
  else if Py.hasSub ("am".toList) time_str then do
    let time_str := Py.replace time_str ("am".toList) []
    let hour ← Py.int (← Py.first (Py.split time_str (":".toList)))
    let minute ←
      if Py.hasSub (":".toList) time_str then
        Py.int (← Py.index (Py.split time_str (":".toList)) 1)
      else pure 0
    pure (hour, minute)
  else if Py.hasSub (":".toList) preferred_time then do
    let hour ← Py.int (← Py.first (Py.split preferred_time (":".toList)))
    let minute ← Py.int (← Py.index (Py.split preferred_time (":".toList)) 1)
    pure (hour, minute)
  else do
    let hour ← Py.int preferred_time
    pure (hour, 0)

/-- The whole `try` of the `"tomorrow"` branch: parse the preferred time
and place it on tomorrow; any exception (including a non-string
preferred time or an out-of-range `replace`) falls back to 19:00. -/
def parseTomorrowStart (tomorrow : DateTime) (preferred_time : PyObj) : DateTime :=
  match (do
      let pt ← preferred_time.asStr
      let hm ← parseTomorrowTime pt
      replaceHM tomorrow hm.1 hm.2) with
  | .ok dt => dt
  | .error _ => setHM tomorrow 19 0

/-- Day count of a civil date (days-from-civil algorithm). -/
def dayFromCivil (y : Int) (m dd : Nat) : Int :=
  let y' := if m ≤ 2 then y - 1 else y
  let era := y'.fdiv 400
  let yoe := (y' - era * 400).toNat
  let doy := (153 * (if 2 < m then m - 3 else m + 9) + 2) / 5 + dd - 1
  let doe := yoe * 365 + yoe / 4 - yoe / 100 + doy
  era * 146097 + (doe : Int) - 730791

/-- `dt.replace(year=y)`: raises `ValueError` when the month/day does
not exist in year `y` (February 29). -/
def replaceYear (dt : DateTime) (y : Int) : Except Unit DateTime :=
  let c := civilFromDay dt.day
  let d' := dayFromCivil y c.2.1 c.2.2
  if civilFromDay d' = (y, c.2.1, c.2.2) then .ok { dt with day := d' }
  else .error ()

/-- Lines 375–423 of the source: determine the meeting start time from
the preferred date/time of the request. -/
def determineStart (now : DateTime) (dparse : PyStr → Except Unit DateTime)
    (mr : MeetingRequest) : Except Unit DateTime := do
  if mr.preferred_date.truthy ∧ mr.preferred_time.truthy then
    let pd ← mr.preferred_date.asStr
    if Py.hasSub ("tomorrow".toList) (Py.lower pd) then
      pure (parseTomorrowStart (addDays now 1) mr.preferred_time)
    else
      match (do
          let start_dt ← dparse (pyStrOf mr.preferred_date ++ [' '] ++
            pyStrOf mr.preferred_time)
          if toTotalMinutes start_dt < toTotalMinutes now then
            replaceYear start_dt ((civilFromDay now.day).1 + 1)
          else pure start_dt) with
      | .ok s => pure s
      | .error _ => pure (setHM (_get_next_business_day now) 14 0)
  else
    pure (setHM (_get_next_business_day now) 14 0)

/-- The attendee-collection loop: keep truthy entries containing `'@'`,
stripped; a truthy non-string entry raises. -/
def collectAttendees : List PyObj → Except Unit (List PyStr)
  | [] => .ok []
  | e :: es => do
    if e.truthy then do
      let s ← e.asStr
      let rest ← collectAttendees es
      if Py.hasChar s '@' then pure (Py.strip s :: rest) else pure rest
    else
      collectAttendees es

/-- A calendar event body as passed to `events().insert` (the constant
`reminders`/`visibility`/`status` entries are omitted; `endTime` is the
`end` entry). -/
structure CalEvent where
  summary : PyStr
  description : PyStr
  start : DateTime
  endTime : DateTime
  attendees : List PyStr

/-- The result of `create_meeting_if_available`: the returned pair
together with the log of successfully inserted events. -/
structure MeetingOutcome where
  created : Bool
  msg : PyStr
  inserted : List CalEvent

/-- The alternatives text: one bullet line per alternative, joined by
newlines. -/
def altText (alternatives : List DateTime) : PyStr :=
  List.intercalate ("\n".toList)
    (alternatives.map (fun alt => bulletChar :: ' ' :: strftimeLong alt))

/-- `f"I'd be happy to meet. How about ..."` prefix. -/
def happyToMeetPrefix : PyStr := "I".toList ++ [apos] ++ "d be happy to meet. How about ".toList

/-- `create_meeting_if_available`.  `insertEvent` abstracts
`events().insert` (with `sendNotifications=True`). -/
def create_meeting_if_available (now : DateTime)
    (dparse : PyStr → Except Unit DateTime) (listing : CalListing)
    (insertEvent : CalEvent → Except Unit Unit)
    (llmTitle llmTopic : PyStr → Except Unit PyStr)
    (mr : MeetingRequest) (sender_email : PyStr)
    (email_subject email_body : Option PyStr) : MeetingOutcome :=
  match (show Except Unit MeetingOutcome from do
      let start_dt ← determineStart now dparse mr
      let avail := check_calendar_availability_dt listing start_dt mr.duration_minutes
      if avail.1 then do
        let d ← mr.duration_minutes.asInt
        let end_dt := addMinutes start_dt d
        let base := if Py.strTruthy sender_email then [cleanAddress sender_email] else []
        let extra ← collectAttendees (← mr.attendees.asList)
        let attendee_emails := base ++ extra
        let meeting_subject ←
          _generate_meeting_subject llmTitle llmTopic mr sender_email
            email_subject email_body
        let event : CalEvent :=
          { summary := meeting_subject
            description := "Meeting requested via email.\n\nOriginal request: ".toList ++
              pyStrOf mr.purpose ++ "\nEmail subject: ".toList ++ strOfOpt email_subject
            start := start_dt
            endTime := end_dt
            attendees := attendee_emails }
        let _ ← insertEvent event
        pure { created := true
               msg := "Meeting scheduled for ".toList ++ strftimeLong start_dt
               inserted := [event] }
      else
        if avail.2 ≠ [] then
          pure { created := false
                 msg := "The requested time is not available. Here are some alternatives:\n".toList ++
                   altText avail.2
                 inserted := ([] : List CalEvent) }
        else
          pure { created := false
                 msg := "No suitable alternative times found this week.".toList
                 inserted := ([] : List CalEvent) }) with
  | .ok r => r
  | .error _ =>
    { created := false
      msg := happyToMeetPrefix ++ strftimeLong (setHM (_get_next_business_day now) 14 0) ++ "?".toList
      inserted := [] }

/-!
## `create_draft_response`
-/

/-- The arguments of `_create_message_raw` (`toAddr` is the `to`
argument; `to` is a Lean keyword). -/
structure RawMessage where
  toAddr : PyStr
  subject : PyStr
  bodyText : PyStr

/-- `_create_message_raw`: `mimeB64` abstracts MIME assembly plus
base64 encoding. -/
def _create_message_raw (mimeB64 : RawMessage → PyStr)
    (toAddr subject body : PyStr) : PyStr :=
  mimeB64 { toAddr := toAddr, subject := subject, bodyText := body }

/-- The message dict passed to `drafts().create`. -/
structure GmailDraftMsg where
  threadId : Option PyStr
  raw : PyStr

/-- `f". I've sent you a calendar invite.\n\n"` suffix. -/
def inviteSentText : PyStr := ". I".toList ++ [apos] ++ "ve sent you a calendar invite.\n\n".toList

/-- The `try` body of `create_draft_response` up to the construction of
the message dict. -/
def draft_message (now : DateTime) (dparse : PyStr → Except Unit DateTime)
    (listing : CalListing) (insertEvent : CalEvent → Except Unit Unit)
    (llmTitle llmTopic : PyStr → Except Unit PyStr)
    (mimeB64 : RawMessage → PyStr) (email : Email) (analysis : EmailAnalysis) :
    Except Unit (GmailDraftMsg × MeetingOutcome) := do
  let sender_name := _extract_sender_name email.sender
  let response_body := "Hi ".toList ++ sender_name ++ ",\n\n".toList
  let response_body ←
    if analysis.suggested_response.truthy then do
      let sr ← analysis.suggested_response.asStr
      pure (response_body ++ sr ++ "\n\n".toList)
    else pure response_body
  let outcome : MeetingOutcome :=
    match analysis.meeting_request with
    | Option.some mr =>
      create_meeting_if_available now dparse listing insertEvent llmTitle llmTopic
        mr email.sender (Option.some email.subject) (Option.some email.body)
    | Option.none => { created := false, msg := [], inserted := [] }
  let response_body :=
    match analysis.meeting_request with
    | Option.some _ =>
      if outcome.created then response_body ++ outcome.msg ++ inviteSentText
      else response_body ++ outcome.msg ++ "\n\n".toList
    | Option.none => response_body
  let response_body := response_body ++ "Best regards,\n[Your Name]".toList
  pure ({ threadId := email.thread_id
          raw := _create_message_raw mimeB64 email.sender
            ("Re: ".toList ++ email.subject) response_body }, outcome)

/-- `create_draft_response`: build the draft, submit it, return the
draft id (`draft.get('id')`); any exception yields `None`. -/
def create_draft_response (now : DateTime) (dparse : PyStr → Except Unit DateTime)
    (listing : CalListing) (insertEvent : CalEvent → Except Unit Unit)
    (llmTitle llmTopic : PyStr → Except Unit PyStr)
    (mimeB64 : RawMessage → PyStr)
    (draftsCreate : GmailDraftMsg → Except Unit (Option PyStr))
    (email : Email) (analysis : EmailAnalysis) : Option PyStr :=
  match (do
      let m ← draft_message now dparse listing insertEvent llmTitle llmTopic
        mimeB64 email analysis
      draftsCreate m.1) with
  | .ok i => i
  | .error _ => Option.none

/-!
## Shared proof helpers
-/

theorem exc_bind_ok {α β : Type} (a : α) (f : α → Except Unit β) :
    (Except.ok a >>= f) = f a := rfl

theorem exc_bind_error {α β : Type} (f : α → Except Unit β) :
    ((Except.error () : Except Unit α) >>= f) = Except.error () := rfl

theorem exc_pure_eq {α : Type} (a : α) : (pure a : Except Unit α) = Except.ok a := rfl

/-!
## Claim C1
-/

/-- C1: for every email input, if the language-model call or the JSON
parsing of its reply raises any exception, `analyze_email_with_reasoning`
returns `needs_response = False`, `response_priority = "low"`,
`email_type = "unknown"`, `reasoning = "Error in analysis"`, an empty
`suggested_response`, and `meeting_request = None`. -/
theorem analyze_email_error_defaults
    (llmResp : Except Unit PyStr) (jsonLoads : PyStr → Except Unit PyObj)
    (h : llmResp = .error () ∨
      ∃ txt t, llmResp = .ok txt ∧ fenceStripped txt = .ok t ∧
        jsonLoads t = .error ()) :
    analyze_email_with_reasoning llmResp jsonLoads =
      { needs_response := .bool false
        response_priority := .str ("low".toList)
        email_type := .str ("unknown".toList)
        reasoning := .str ("Error in analysis".toList)
        suggested_response := .str []
        meeting_request := Option.none } := by
  rcases h with h | ⟨txt, t, h1, h2, h3⟩
  · subst h; rfl
  · subst h1
    unfold analyze_email_with_reasoning analyzeInner
    rw [exc_bind_ok, h2, exc_bind_ok, h3, exc_bind_error]
    rfl

/-- Witness for C1 at a model reply that is not valid JSON. -/
theorem analyze_email_error_defaults_witness :
    analyze_email_with_reasoning (.ok ("not json".toList)) (fun _ => .error ()) =
      { needs_response := .bool false
        response_priority := .str ("low".toList)
        email_type := .str ("unknown".toList)
        reasoning := .str ("Error in analysis".toList)
        suggested_response := .str []
        meeting_request := Option.none } :=
  analyze_email_error_defaults (.ok ("not json".toList)) (fun _ => .error ())
    (Or.inr ⟨("not json".toList), Py.strip ("not json".toList), rfl, rfl, rfl⟩)

/-!
## Claim C4
-/

/-- C4: every external call site follows the uniform error pattern with a
default/empty result: on any exception `get_unread_emails` returns `[]`,
`check_calendar_availability` and `check_calendar_availability_dt` return
`(False, [])`, and `create_draft_response` returns `None`. -/
theorem uniform_error_defaults
    (getMsg : PyStr → Except Unit EmailData) (b64 : PyStr → PyStr)
    (listing : CalListing) (requested_dt : DateTime) (dm : PyObj) (d : Int)
    (now : DateTime) (dparse : PyStr → Except Unit DateTime) (listing2 : CalListing)
    (date_str time_str : PyStr)
    (insertEvent : CalEvent → Except Unit Unit)
    (llmTitle llmTopic : PyStr → Except Unit PyStr)
    (mimeB64 : RawMessage → PyStr)
    (draftsCreate : GmailDraftMsg → Except Unit (Option PyStr))
    (email : Email) (analysis : EmailAnalysis)
    (hdm : dm.asInt = .ok d)
    (hlist : listing requested_dt (addMinutes requested_dt d) = .error ())
    (hds : Py.strTruthy date_str = true) (hts : Py.strTruthy time_str = true)
    (hparse : dparse (date_str ++ [' '] ++ time_str) = .error ())
    (hdraft : ∀ m, draftsCreate m = .error ()) :
    get_unread_emails (.error ()) getMsg b64 = [] ∧
    check_calendar_availability_dt listing requested_dt dm = (false, []) ∧
    check_calendar_availability now dparse listing2 date_str time_str dm = (false, []) ∧
    create_draft_response now dparse listing2 insertEvent llmTitle llmTopic
      mimeB64 draftsCreate email analysis = Option.none := by
  refine ⟨rfl, ?_, ?_, ?_⟩
  · unfold check_calendar_availability_dt
    rw [hdm, exc_bind_ok, hlist, exc_bind_error]
  · unfold check_calendar_availability
    rw [if_pos ⟨hds, hts⟩, hparse, exc_bind_error]
  · unfold create_draft_response
    cases h : draft_message now dparse listing2 insertEvent llmTitle llmTopic
        mimeB64 email analysis with
    | ok m => rw [exc_bind_ok, hdraft]
    | error e => rw [exc_bind_error]

/-- Witness for C4 at concrete failing calls. -/
theorem uniform_error_defaults_witness :
    get_unread_emails (.error ()) (fun _ => .error ()) (fun s => s) = [] ∧
    check_calendar_availability_dt (fun _ _ => .error ()) ⟨0, 9, 0⟩ (.num 30) = (false, []) ∧
    check_calendar_availability ⟨0, 9, 0⟩ (fun _ => .error ()) (fun _ _ => .error ())
      ("monday".toList) ("9am".toList) (.num 30) = (false, []) ∧
    create_draft_response ⟨0, 9, 0⟩ (fun _ => .error ()) (fun _ _ => .error ())
      (fun _ => .ok ()) (fun _ => .error ()) (fun _ => .error ())
      (fun _ => []) (fun _ => .error ())
      ⟨[], [], [], [], [], Option.none⟩
      ⟨.bool true, .str ("high".toList), .str ("business".toList), .str [],
        .str [], Option.none⟩ = Option.none :=
  uniform_error_defaults (fun _ => .error ()) (fun s => s)
    (fun _ _ => .error ()) ⟨0, 9, 0⟩ (.num 30) 30
    ⟨0, 9, 0⟩ (fun _ => .error ()) (fun _ _ => .error ())
    ("monday".toList) ("9am".toList)
    (fun _ => .ok ()) (fun _ => .error ()) (fun _ => .error ())
    (fun _ => []) (fun _ => .error ())
    ⟨[], [], [], [], [], Option.none⟩
    ⟨.bool true, .str ("high".toList), .str ("business".toList), .str [],
      .str [], Option.none⟩
    rfl rfl rfl rfl rfl (fun _ => rfl)

/-!
## Claim C6
-/

/-- A successful `mapM` over `Except` produces only outputs of successful
per-element calls. -/
theorem mapM_ok_mem {α β : Type} (f : α → Except Unit β) :
    ∀ (l : List α) (es : List β), l.mapM f = .ok es →
      ∀ e ∈ es, ∃ a, a ∈ l ∧ f a = .ok e := by
  intro l
  induction l with
  | nil =>
    intro es h e he
    simp only [List.mapM_nil] at h
    cases h
    simp at he
  | cons a as ih =>
    intro es h e he
    rw [List.mapM_cons] at h
    cases hfa : f a with
    | error u => rw [hfa, exc_bind_error] at h; cases h
    | ok b =>
      rw [hfa, exc_bind_ok] at h
      cases has : as.mapM f with
      | error u => rw [has, exc_bind_error] at h; cases h
      | ok bs =>
        rw [has, exc_bind_ok] at h
        cases h
        rcases List.mem_cons.mp he with he | he
        · exact ⟨a, List.mem_cons_self a as, he ▸ hfa⟩
        · obtain ⟨a', ha', hfa'⟩ := ih bs has e he
          exact ⟨a', List.mem_cons_of_mem a ha', hfa'⟩

/-- When no part is `text/plain`, the loop leaves the body `''`. -/
theorem extractFromParts_no_plain (b64 : PyStr → PyStr) :
    ∀ ps, (∀ p ∈ ps, p.mimeType ≠ ("text/plain".toList)) →
      extractFromParts b64 ps = .ok [] := by
  intro ps h
  induction ps with
  | nil => rfl
  | cons p ps ih =>
    unfold extractFromParts
    rw [if_neg (h p (List.mem_cons_self p ps))]
    exact ih (fun q hq => h q (List.mem_cons_of_mem p hq))

/-- When no header has the requested name, the header value is `''`. -/
theorem headerValue_absent (l : List (PyStr × PyStr)) (n : PyStr)
    (h : ∀ hd ∈ l, hd.1 ≠ n) : headerValue l n = [] := by
  unfold headerValue
  rw [List.find?_eq_none.mpr]
  intro x hx
  simp only [decide_eq_true_eq]
  exact h x hx

/-- C6: every record of a successful `get_unread_emails` call is built by
`buildEmail` from a fetched message; it has exactly the six fields of the
dict literal, with `subject`/`sender`/`date` defaulting to `''` when the
header is absent and `body` defaulting to `''` when no `text/plain` part
exists. -/
theorem email_record_fields
    (listMsgs : Except Unit (Option (List PyStr)))
    (getMsg : PyStr → Except Unit EmailData) (b64 : PyStr → PyStr)
    (es : List Email)
    (hok : getUnreadInner listMsgs getMsg b64 = .ok es) :
    get_unread_emails listMsgs getMsg b64 = es ∧
    (∀ e ∈ es, ∃ mid ed, getMsg mid = .ok ed ∧ buildEmail b64 mid ed = .ok e) ∧
    (∀ mid ed e, buildEmail b64 mid ed = .ok e →
      e.id = mid ∧
      e.subject = headerValue (ed.payload.headers.getD []) ("Subject".toList) ∧
      e.sender = headerValue (ed.payload.headers.getD []) ("From".toList) ∧
      e.date = headerValue (ed.payload.headers.getD []) ("Date".toList) ∧
      e.thread_id = ed.threadId ∧
      ((∀ hd ∈ ed.payload.headers.getD [], hd.1 ≠ ("Subject".toList)) →
        e.subject = []) ∧
      ((∀ hd ∈ ed.payload.headers.getD [], hd.1 ≠ ("From".toList)) →
        e.sender = []) ∧
      ((∀ hd ∈ ed.payload.headers.getD [], hd.1 ≠ ("Date".toList)) →
        e.date = []) ∧
      ((match ed.payload.parts with
        | Option.some ps => ∀ p ∈ ps, p.mimeType ≠ ("text/plain".toList)
        | Option.none => ed.payload.mimeType ≠ ("text/plain".toList)) →
        e.body = [])) := by
  refine ⟨?_, ?_, ?_⟩
  · unfold get_unread_emails
    rw [hok]
  · intro e he
    unfold getUnreadInner at hok
    cases hl : listMsgs with
    | error u => rw [hl, exc_bind_error] at hok; cases hok
    | ok o =>
      rw [hl, exc_bind_ok] at hok
      obtain ⟨mid, hmid, hf⟩ := mapM_ok_mem _ _ _ hok e he
      cases hg : getMsg mid with
      | error u => rw [hg, exc_bind_error] at hf; cases hf
      | ok ed =>
        rw [hg, exc_bind_ok] at hf
        exact ⟨mid, ed, hg, hf⟩
  · intro mid ed e hbe
    unfold buildEmail at hbe
    cases hx : _extract_body b64 ed.payload with
    | error u => rw [hx, exc_bind_error] at hbe; cases hbe
    | ok bd =>
      rw [hx, exc_bind_ok] at hbe
      cases hbe
      refine ⟨rfl, rfl, rfl, rfl, rfl, ?_, ?_, ?_, ?_⟩
      · intro h; exact headerValue_absent _ _ h
      · intro h; exact headerValue_absent _ _ h
      · intro h; exact headerValue_absent _ _ h
      · intro h
        unfold _extract_body at hx
        cases hp : ed.payload.parts with
        | some ps =>
          rw [hp] at hx h
          dsimp only at hx h
          rw [extractFromParts_no_plain b64 ps h] at hx
          cases hx
          rfl
        | none =>
          rw [hp] at hx h
          dsimp only at hx h
          rw [if_neg h] at hx
          cases hx
          rfl

/-- Witness for C6 at one fetched message with no headers and no
`text/plain` content. -/
theorem email_record_fields_witness :
    get_unread_emails (.ok (Option.some [("m1".toList)]))
      (fun _ => .ok ⟨⟨Option.none, [], ⟨Option.none⟩, Option.none⟩, Option.none⟩)
      (fun s => s) = [⟨("m1".toList), [], [], [], [], Option.none⟩] :=
  (email_record_fields (.ok (Option.some [("m1".toList)]))
    (fun _ => .ok ⟨⟨Option.none, [], ⟨Option.none⟩, Option.none⟩, Option.none⟩)
    (fun s => s) [⟨("m1".toList), [], [], [], [], Option.none⟩] rfl).1

/-!
## Claim C7
-/

/-- C7: a `MeetingRequest` is constructed exactly when the reply's
`meeting_request` object has a truthy `has_meeting_request`; its fields
then come from `.get` with defaults `''`, `None`, `None`, `30`, `[]`. -/
theorem meeting_request_extraction
    (kvs mkvs : List (PyStr × PyObj))
    (hm : kvs.lookup ("meeting_request".toList) = Option.some (.dict mkvs)) :
    extractMeetingRequest (.dict kvs) = .ok (
      if PyObj.optTruthy (mkvs.lookup ("has_meeting_request".toList)) then
        Option.some
          { purpose := (mkvs.lookup ("purpose".toList)).getD (.str [])
            preferred_date := optToObj (mkvs.lookup ("preferred_date".toList))
            preferred_time := optToObj (mkvs.lookup ("preferred_time".toList))
            duration_minutes := (mkvs.lookup ("duration_minutes".toList)).getD (.num 30)
            attendees := (mkvs.lookup ("attendees".toList)).getD (.list []) }
      else Option.none) ∧
    ((∃ mr, extractMeetingRequest (.dict kvs) = .ok (Option.some mr)) ↔
      PyObj.optTruthy (mkvs.lookup ("has_meeting_request".toList)) = true) := by
  have hgd : PyObj.getD (.dict kvs) ("meeting_request".toList) (.dict []) =
      .ok (.dict mkvs) := by
    unfold PyObj.getD
    dsimp only
    rw [hm]
    rfl
  have hgi : PyObj.getItem (.dict kvs) ("meeting_request".toList) =
      .ok (.dict mkvs) := by
    unfold PyObj.getItem
    dsimp only
    rw [hm]
  have heq : extractMeetingRequest (.dict kvs) = .ok (
      if PyObj.optTruthy (mkvs.lookup ("has_meeting_request".toList)) then
        Option.some
          { purpose := (mkvs.lookup ("purpose".toList)).getD (.str [])
            preferred_date := optToObj (mkvs.lookup ("preferred_date".toList))
            preferred_time := optToObj (mkvs.lookup ("preferred_time".toList))
            duration_minutes := (mkvs.lookup ("duration_minutes".toList)).getD (.num 30)
            attendees := (mkvs.lookup ("attendees".toList)).getD (.list []) }
      else Option.none) := by
    unfold extractMeetingRequest
    rw [hgd, exc_bind_ok]
    rw [show PyObj.get (.dict mkvs) ("has_meeting_request".toList) =
      .ok (mkvs.lookup ("has_meeting_request".toList)) from rfl, exc_bind_ok]
    by_cases ht : PyObj.optTruthy (mkvs.lookup ("has_meeting_request".toList)) = true
    · rw [if_pos ht, if_pos ht, hgi, exc_bind_ok]
      rfl
    · rw [if_neg ht, if_neg ht]
      rfl
  refine ⟨heq, ?_, ?_⟩
  · rintro ⟨mr, hmr⟩
    by_cases ht : PyObj.optTruthy (mkvs.lookup ("has_meeting_request".toList)) = true
    · exact ht
    · rw [heq, if_neg ht] at hmr
      cases hmr
  · intro ht
    rw [heq, if_pos ht]
    exact ⟨_, rfl⟩

/-- Witness for C7 at a reply whose `meeting_request` object is truthy
and carries no further keys. -/
theorem meeting_request_extraction_witness :
    extractMeetingRequest (.dict [(("meeting_request".toList),
        .dict [(("has_meeting_request".toList), .bool true)])]) = .ok (
      if PyObj.optTruthy ([(("has_meeting_request".toList), .bool true)].lookup
          ("has_meeting_request".toList)) then
        Option.some
          { purpose := ([(("has_meeting_request".toList), .bool true)].lookup
              ("purpose".toList)).getD (.str [])
            preferred_date := optToObj ([(("has_meeting_request".toList), .bool true)].lookup
              ("preferred_date".toList))
            preferred_time := optToObj ([(("has_meeting_request".toList), .bool true)].lookup
              ("preferred_time".toList))
            duration_minutes := ([(("has_meeting_request".toList), .bool true)].lookup
              ("duration_minutes".toList)).getD (.num 30)
            attendees := ([(("has_meeting_request".toList), .bool true)].lookup
              ("attendees".toList)).getD (.list []) }
      else Option.none) :=
  (meeting_request_extraction [(("meeting_request".toList),
      .dict [(("has_meeting_request".toList), .bool true)])]
    [(("has_meeting_request".toList), .bool true)] (by rfl)).1

/-!
## Claim C5
-/

/-- C5: for an analysis that needs a response, the draft body is, in
order, the greeting `Hi <sender name>,`, the suggested response when
non-empty, the meeting scheduling-outcome text when a meeting was
requested, and the closing; the subject is `Re: ` plus the original
subject and the draft sits on the original thread. -/
theorem draft_layout (now : DateTime) (dparse : PyStr → Except Unit DateTime)
    (listing : CalListing) (insertEvent : CalEvent → Except Unit Unit)
    (llmTitle llmTopic : PyStr → Except Unit PyStr) (mimeB64 : RawMessage → PyStr)
    (email : Email) (analysis : EmailAnalysis) (sr : PyStr)
    (hnr : analysis.needs_response.truthy = true)
    (hsr : analysis.suggested_response = .str sr) :
    draft_message now dparse listing insertEvent llmTitle llmTopic mimeB64
        email analysis =
      .ok (
        let outcome : MeetingOutcome :=
          match analysis.meeting_request with
          | Option.some mr =>
            create_meeting_if_available now dparse listing insertEvent llmTitle
              llmTopic mr email.sender (Option.some email.subject)
              (Option.some email.body)
          | Option.none => ⟨false, [], []⟩
        ({ threadId := email.thread_id
           raw := _create_message_raw mimeB64 email.sender
             ("Re: ".toList ++ email.subject)
             ("Hi ".toList ++ _extract_sender_name email.sender ++ ",\n\n".toList ++
              (if sr ≠ [] then sr ++ "\n\n".toList else []) ++
              (match analysis.meeting_request with
               | Option.some _ =>
                 if outcome.created then outcome.msg ++ inviteSentText
                 else outcome.msg ++ "\n\n".toList
               | Option.none => []) ++
              "Best regards,\n[Your Name]".toList) }, outcome)) := by
  unfold draft_message
  rw [hsr]
  by_cases hs : sr = []
  · subst hs
    rw [if_neg (show ¬(PyObj.truthy (.str []) = true) from by simp [PyObj.truthy])]
    cases hmr : analysis.meeting_request with
    | none =>
      dsimp only
      simp only [exc_pure_eq, exc_bind_ok]
      simp [List.append_assoc]
    | some mr =>
      dsimp only
      simp only [exc_pure_eq, exc_bind_ok]
      simp only [show (¬(([] : PyStr) ≠ [])) from by simp, if_false,
        List.append_nil, ite_not]
      split <;> simp [List.append_assoc]
  · rw [if_pos (show PyObj.truthy (.str sr) = true from by simp [PyObj.truthy, hs]),
      show PyObj.asStr (.str sr) = .ok sr from rfl, exc_bind_ok]
    cases hmr : analysis.meeting_request with
    | none =>
      dsimp only
      simp only [exc_pure_eq, exc_bind_ok]
      simp [hs, List.append_assoc]
    | some mr =>
      dsimp only
      simp only [exc_pure_eq, exc_bind_ok]
      simp only [ne_eq, hs, not_false_eq_true, if_true]
      split <;> simp [List.append_assoc]

/-- Witness for C5 at a concrete email with a non-empty suggested
response and no meeting request. -/
theorem draft_layout_witness :
    draft_message ⟨0, 9, 0⟩ (fun _ => .error ()) (fun _ _ => .ok [])
      (fun _ => .ok ()) (fun _ => .error ()) (fun _ => .error ())
      (fun r => r.subject ++ r.bodyText)
      ⟨("m1".toList), ("Hello".toList), ("Jane Doe <jane@x.com>".toList), [],
        [], Option.some ("t1".toList)⟩
      ⟨.bool true, .str ("high".toList), .str ("business".toList), .str [],
        .str ("Thanks for reaching out.".toList), Option.none⟩ =
      .ok ({ threadId := Option.some ("t1".toList)
             raw := ("Re: Hello".toList) ++
               ("Hi Jane Doe,\n\nThanks for reaching out.\n\n".toList) ++
               ("Best regards,\n[Your Name]".toList) }, ⟨false, [], []⟩) := by
  have h := draft_layout ⟨0, 9, 0⟩ (fun _ => .error ()) (fun _ _ => .ok [])
    (fun _ => .ok ()) (fun _ => .error ()) (fun _ => .error ())
    (fun r => r.subject ++ r.bodyText)
    ⟨("m1".toList), ("Hello".toList), ("Jane Doe <jane@x.com>".toList), [],
      [], Option.some ("t1".toList)⟩
    ⟨.bool true, .str ("high".toList), .str ("business".toList), .str [],
      .str ("Thanks for reaching out.".toList), Option.none⟩
    ("Thanks for reaching out.".toList) rfl rfl
  rw [h]
  rfl

/-!
## Claim C10
-/

/-- No chunk produced by `splitFuel` is, as a list of chunks, empty. -/
theorem splitFuel_ne_nil : ∀ (fuel : Nat) (s sep : PyStr),
    Py.splitFuel fuel s sep ≠ [] := by
  intro fuel
  induction fuel with
  | zero =>
    intro s sep
    cases s <;> simp [Py.splitFuel]
  | succ n ih =>
    intro s sep
    cases s with
    | nil => simp [Py.splitFuel]
    | cons c rest =>
      unfold Py.splitFuel
      split
      · simp
      · cases h : Py.splitFuel n rest sep <;> simp

/-- With enough fuel, the first chunk of a single-character split is the
longest prefix avoiding that character. -/
theorem splitFuel_single_headI : ∀ (fuel : Nat) (s : PyStr) (c : Char),
    s.length ≤ fuel →
    (Py.splitFuel fuel s [c]).headI = s.takeWhile (fun x => decide (x ≠ c)) := by
  intro fuel
  induction fuel with
  | zero =>
    intro s c hl
    cases s with
    | nil => rfl
    | cons a rest => simp at hl
  | succ n ih =>
    intro s c hl
    cases s with
    | nil => rfl
    | cons a rest =>
      unfold Py.splitFuel
      by_cases hac : a = c
      · subst hac
        rw [if_pos ⟨by simp, by simp [List.isPrefixOf]⟩]
        simp [List.takeWhile_cons]
      · rw [if_neg (by
          rintro ⟨-, hpre⟩
          simp [List.isPrefixOf] at hpre
          exact hac hpre.symm)]
        have hrec := ih rest c (by simp at hl; omega)
        cases hsp : Py.splitFuel n rest [c] with
        | nil => exact absurd hsp (splitFuel_ne_nil n rest [c])
        | cons chunk chunks =>
          rw [hsp] at hrec
          simp only [List.headI] at hrec
          simp [List.takeWhile_cons, hac, hrec]

/-- The first chunk of `s.split(c)` avoids `c`. -/
theorem split_single_headI (s : PyStr) (c : Char) :
    (Py.split s [c]).headI = s.takeWhile (fun x => decide (x ≠ c)) :=
  splitFuel_single_headI s.length s c le_rfl

/-- A character of a replacement result comes from the subject or from
the replacement string. -/
theorem mem_replaceFuel : ∀ (fuel : Nat) (s pat rep : PyStr) (x : Char),
    x ∈ Py.replaceFuel fuel s pat rep → x ∈ s ∨ x ∈ rep := by
  intro fuel
  induction fuel with
  | zero =>
    intro s pat rep x hx
    cases s with
    | nil => simp [Py.replaceFuel] at hx
    | cons a rest => exact Or.inl hx
  | succ n ih =>
    intro s pat rep x hx
    cases s with
    | nil => simp [Py.replaceFuel] at hx
    | cons a rest =>
      unfold Py.replaceFuel at hx
      split at hx
      · rcases List.mem_append.mp hx with hx | hx
        · exact Or.inr hx
        · rcases ih _ _ _ _ hx with hx | hx
          · exact Or.inl (List.mem_of_mem_drop hx)
          · exact Or.inr hx
      · rcases List.mem_cons.mp hx with hx | hx
        · exact Or.inl (hx ▸ List.mem_cons_self a rest)
        · rcases ih _ _ _ _ hx with hx | hx
          · exact Or.inl (List.mem_cons_of_mem a hx)
          · exact Or.inr hx

/-- A character of a replacement comes from the subject or the
replacement string. -/
theorem mem_replace (s pat rep : PyStr) (x : Char)
    (hx : x ∈ Py.replace s pat rep) : x ∈ s ∨ x ∈ rep :=
  mem_replaceFuel s.length s pat rep x hx

/-- A character of `title` is the upper- or lower-casing of a character
of the input. -/
theorem mem_titleGo : ∀ (b : Bool) (s : PyStr) (x : Char),
    x ∈ Py.titleGo b s →
    ∃ y ∈ s, x = y.toLower ∨ x = y.toUpper ∨ x = y := by
  intro b s
  induction s generalizing b with
  | nil => intro x hx; simp [Py.titleGo] at hx
  | cons a rest ih =>
    intro x hx
    unfold Py.titleGo at hx
    split at hx
    · rcases List.mem_cons.mp hx with hx | hx
      · refine ⟨a, List.mem_cons_self a rest, ?_⟩
        split at hx
        · exact Or.inl hx
        · exact Or.inr (Or.inl hx)
      · obtain ⟨y, hy, hc⟩ := ih true x hx
        exact ⟨y, List.mem_cons_of_mem a hy, hc⟩
    · rcases List.mem_cons.mp hx with hx | hx
      · exact ⟨a, List.mem_cons_self a rest, Or.inr (Or.inr hx)⟩
      · obtain ⟨y, hy, hc⟩ := ih false x hx
        exact ⟨y, List.mem_cons_of_mem a hy, hc⟩

/-- No basic-latin uppercase codepoint is `'@'`. -/
theorem ofNat_upper_ne_at : ∀ m : Nat, m < 91 → 65 ≤ m → Char.ofNat m ≠ '@' := by
  decide

/-- No basic-latin lowercase codepoint is `'@'`. -/
theorem ofNat_lower_ne_at : ∀ m : Nat, m < 123 → 97 ≤ m → Char.ofNat m ≠ '@' := by
  decide

/-- `toUpper` maps only `'@'` to `'@'`. -/
theorem toUpper_ne_at (c : Char) (hc : c ≠ '@') : Char.toUpper c ≠ '@' := by
  by_cases h : c.toNat ≥ 97 ∧ c.toNat ≤ 122
  · have hu : Char.toUpper c = Char.ofNat (c.toNat - 32) := by
      unfold Char.toUpper
      exact if_pos h
    rw [hu]
    exact ofNat_upper_ne_at (c.toNat - 32) (by omega) (by omega)
  · have hu : Char.toUpper c = c := by
      unfold Char.toUpper
      exact if_neg h
    rw [hu]
    exact hc

/-- `toLower` maps only `'@'` to `'@'`. -/
theorem toLower_ne_at (c : Char) (hc : c ≠ '@') : Char.toLower c ≠ '@' := by
  by_cases h : c.toNat ≥ 65 ∧ c.toNat ≤ 90
  · have hu : Char.toLower c = Char.ofNat (c.toNat + 32) := by
      unfold Char.toLower
      exact if_pos h
    rw [hu]
    exact ofNat_lower_ne_at (c.toNat + 32) (by omega) (by omega)
  · have hu : Char.toLower c = c := by
      unfold Char.toLower
      exact if_neg h
    rw [hu]
    exact hc

/-- C10: `_extract_sender_name` returns the stripped display name before
`'<'` when it is non-empty; otherwise it title-cases the address's local
part with `'.'` and `'_'` turned into spaces, so for a bare address the
greeting name is never the raw email address. -/
theorem extract_sender_name_spec (s : PyStr) :
    (Py.hasChar s '<' = true ∧
        Py.strTruthy (Py.strip ((Py.split s ("<".toList)).headI)) = true →
      _extract_sender_name s = Py.strip ((Py.split s ("<".toList)).headI)) ∧
    (¬(Py.hasChar s '<' = true ∧
        Py.strTruthy (Py.strip ((Py.split s ("<".toList)).headI)) = true) →
      _extract_sender_name s =
        Py.title (Py.replace (Py.replace
          ((Py.split (cleanAddress s) ("@".toList)).headI)
          (".".toList) [' ']) ("_".toList) [' '])) ∧
    (Py.hasChar s '<' = false → Py.hasChar s '@' = true →
      _extract_sender_name s ≠ s) := by
  refine ⟨?_, ?_, ?_⟩
  · rintro ⟨h1, h2⟩
    unfold _extract_sender_name
    rw [if_pos ⟨h1, h2⟩]
  · intro h
    unfold _extract_sender_name
    rw [if_neg h]
  · intro hlt hat
    have hs : '@' ∈ s := by
      have : s.elem '@' = true := hat
      exact List.mem_of_elem_eq_true this
    have hcond : ¬(Py.hasChar s '<' = true ∧
        Py.strTruthy (Py.strip ((Py.split s ("<".toList)).headI)) = true) := by
      rintro ⟨h1, -⟩
      rw [hlt] at h1
      cases h1
    unfold _extract_sender_name
    rw [if_neg hcond]
    intro heq
    have hsplit : ((Py.split (cleanAddress s) ("@".toList)).headI) =
        (cleanAddress s).takeWhile (fun x => decide (x ≠ '@')) := by
      have hc : ("@".toList : PyStr) = ['@'] := rfl
      rw [hc, split_single_headI]
    have husr : '@' ∉ (Py.split (cleanAddress s) ("@".toList)).headI := by
      rw [hsplit]
      intro hx
      have := List.mem_takeWhile_imp hx
      simp at this
    have hv : '@' ∉ Py.replace (Py.replace
        ((Py.split (cleanAddress s) ("@".toList)).headI)
        (".".toList) [' ']) ("_".toList) [' '] := by
      intro hx
      rcases mem_replace _ _ _ _ hx with hx | hx
      · rcases mem_replace _ _ _ _ hx with hx | hx
        · exact husr hx
        · simp at hx
      · simp at hx
    have htitle : '@' ∉ Py.title (Py.replace (Py.replace
        ((Py.split (cleanAddress s) ("@".toList)).headI)
        (".".toList) [' ']) ("_".toList) [' ']) := by
      intro hx
      obtain ⟨y, hy, hc⟩ := mem_titleGo false _ '@' hx
      have hyne : y ≠ '@' := fun he => hv (he ▸ hy)
      rcases hc with hc | hc | hc
      · exact toLower_ne_at y hyne hc.symm
      · exact toUpper_ne_at y hyne hc.symm
      · exact hyne hc.symm
    rw [heq] at htitle
    exact htitle hs

/-- Witness for C10: a bare address is turned into a friendly name, a
display name is returned as-is. -/
theorem extract_sender_name_spec_witness :
    _extract_sender_name ("john.doe@example.com".toList) ≠
      ("john.doe@example.com".toList) ∧
    _extract_sender_name ("John Doe <john@example.com>".toList) =
      Py.strip ((Py.split ("John Doe <john@example.com>".toList)
        ("<".toList)).headI) :=
  ⟨(extract_sender_name_spec ("john.doe@example.com".toList)).2.2 rfl rfl,
   (extract_sender_name_spec ("John Doe <john@example.com>".toList)).1
     ⟨rfl, rfl⟩⟩

/-!
## Claim C8
-/

deriving instance DecidableEq for Except

/-- When the `try` of the `"tomorrow"` branch succeeds, its value is
returned. -/
theorem parseTomorrowStart_ok (tomorrow : DateTime) (v : PyObj) (dt : DateTime)
    (h : (do
        let pt ← v.asStr
        let hm ← parseTomorrowTime pt
        replaceHM tomorrow hm.1 hm.2) = .ok dt) :
    parseTomorrowStart tomorrow v = dt := by
  unfold parseTomorrowStart
  rw [h]

/-- When the `try` of the `"tomorrow"` branch raises, 19:00 is used. -/
theorem parseTomorrowStart_error (tomorrow : DateTime) (v : PyObj)
    (h : (do
        let pt ← v.asStr
        let hm ← parseTomorrowTime pt
        replaceHM tomorrow hm.1 hm.2) = .error ()) :
    parseTomorrowStart tomorrow v = setHM tomorrow 19 0 := by
  unfold parseTomorrowStart
  rw [h]

set_option maxHeartbeats 2000000 in
/-- `"<H>pm"` parses to hour `H + 12` for `H` in 1..11. -/
theorem parseTomorrowTime_pm : ∀ h : Nat, h < 12 → 1 ≤ h →
    parseTomorrowTime (natToStr h ++ ("pm".toList)) = .ok ((h : Int) + 12, 0) := by
  decide

/-- `"12pm"` parses to hour 12. -/
theorem parseTomorrowTime_12pm :
    parseTomorrowTime ("12pm".toList) = .ok (12, 0) := by
  decide

set_option maxHeartbeats 2000000 in
/-- `"<H>am"` parses to hour `H` unchanged for `H` in 1..12 (so `"12am"`
gives hour 12, not 0). -/
theorem parseTomorrowTime_am : ∀ h : Nat, h < 13 → 1 ≤ h →
    parseTomorrowTime (natToStr h ++ ("am".toList)) = .ok ((h : Int), 0) := by
  decide

set_option maxHeartbeats 4000000 in
/-- `"<H>:<M>"` parses to hour `H` and minute `M`. -/
theorem parseTomorrowTime_24h : ∀ h : Nat, h < 24 → ∀ m : Nat, m < 60 →
    parseTomorrowTime (natToStr h ++ (":".toList) ++ natToStr m) =
      .ok ((h : Int), (m : Int)) := by
  decide

/-- C8: for a preferred date containing `"tomorrow"`, the time parsing
maps `"<H>pm"` to hour `H+12` for `H` in 1..11 and `"12pm"` to 12, maps
`"<H>am"` to hour `H` unchanged for `H` in 1..12 (so `"12am"` yields 12,
not 0), maps `"<H>:<M>"` to hour `H` minute `M`, and falls back to 19:00
tomorrow whenever the parsing raises. -/
theorem tomorrow_time_parsing (tomorrow : DateTime) :
    (∀ h : Nat, h < 12 → 1 ≤ h →
      parseTomorrowStart tomorrow (.str (natToStr h ++ ("pm".toList))) =
        setHM tomorrow (h + 12) 0) ∧
    (parseTomorrowStart tomorrow (.str ("12pm".toList)) = setHM tomorrow 12 0) ∧
    (∀ h : Nat, h < 13 → 1 ≤ h →
      parseTomorrowStart tomorrow (.str (natToStr h ++ ("am".toList))) =
        setHM tomorrow h 0) ∧
    (∀ h : Nat, h < 24 → ∀ m : Nat, m < 60 →
      parseTomorrowStart tomorrow
          (.str (natToStr h ++ (":".toList) ++ natToStr m)) =
        setHM tomorrow h m) ∧
    (∀ v : PyObj, (do
        let pt ← v.asStr
        let hm ← parseTomorrowTime pt
        replaceHM tomorrow hm.1 hm.2) = .error () →
      parseTomorrowStart tomorrow v = setHM tomorrow 19 0) ∧
    (∀ (now : DateTime) (dparse : PyStr → Except Unit DateTime)
        (mr : MeetingRequest) (pd : PyStr),
      mr.preferred_date = .str pd →
      Py.hasSub ("tomorrow".toList) (Py.lower pd) = true →
      mr.preferred_time.truthy = true →
      tomorrow = addDays now 1 →
      determineStart now dparse mr =
        .ok (parseTomorrowStart tomorrow mr.preferred_time)) := by
  refine ⟨?_, ?_, ?_, ?_, ?_, ?_⟩
  · intro h h12 h1
    apply parseTomorrowStart_ok
    rw [show PyObj.asStr (.str (natToStr h ++ ("pm".toList))) =
      .ok (natToStr h ++ ("pm".toList)) from rfl, exc_bind_ok,
      parseTomorrowTime_pm h h12 h1, exc_bind_ok]
    unfold replaceHM
    rw [if_pos ⟨by omega, by omega, by omega, by omega⟩]
    have hh : ((h : Int) + 12).toNat = h + 12 := by omega
    unfold setHM
    rw [hh]
    rfl
  · apply parseTomorrowStart_ok
    rw [show PyObj.asStr (.str ("12pm".toList)) = .ok ("12pm".toList) from rfl,
      exc_bind_ok, parseTomorrowTime_12pm, exc_bind_ok]
    rfl
  · intro h h13 h1
    apply parseTomorrowStart_ok
    rw [show PyObj.asStr (.str (natToStr h ++ ("am".toList))) =
      .ok (natToStr h ++ ("am".toList)) from rfl, exc_bind_ok,
      parseTomorrowTime_am h h13 h1, exc_bind_ok]
    unfold replaceHM
    rw [if_pos ⟨by omega, by omega, by omega, by omega⟩]
    have hh : ((h : Int)).toNat = h := by omega
    unfold setHM
    rw [hh]
    rfl
  · intro h h24 m m60
    apply parseTomorrowStart_ok
    rw [show PyObj.asStr (.str (natToStr h ++ (":".toList) ++ natToStr m)) =
      .ok (natToStr h ++ (":".toList) ++ natToStr m) from rfl, exc_bind_ok,
      parseTomorrowTime_24h h h24 m m60, exc_bind_ok]
    unfold replaceHM
    rw [if_pos ⟨by omega, by omega, by omega, by omega⟩]
    have hh : ((h : Int)).toNat = h := by omega
    have hm : ((m : Int)).toNat = m := by omega
    unfold setHM
    rw [hh, hm]
  · intro v hv
    exact parseTomorrowStart_error tomorrow v hv
  · intro now dparse mr pd hpd htom hpt htm
    have hpdne : pd ≠ [] := by
      intro he
      subst he
      simp [Py.hasSub, Py.lower, List.isPrefixOf] at htom
    unfold determineStart
    rw [if_pos ⟨by simp [hpd, PyObj.truthy, hpdne], hpt⟩]
    rw [hpd]
    rw [show PyObj.asStr (.str pd) = .ok pd from rfl, exc_bind_ok]
    rw [if_pos htom, htm]
    rfl

/-- Witness for C8: `"7pm"` becomes 19:00, `"12am"` becomes 12:00,
`"19:30"` becomes 19:30 and garbage falls back to 19:00. -/
theorem tomorrow_time_parsing_witness :
    parseTomorrowStart ⟨1, 9, 30⟩ (.str ("7pm".toList)) = setHM ⟨1, 9, 30⟩ 19 0 ∧
    parseTomorrowStart ⟨1, 9, 30⟩ (.str ("12am".toList)) = setHM ⟨1, 9, 30⟩ 12 0 ∧
    parseTomorrowStart ⟨1, 9, 30⟩ (.str ("19:30".toList)) = setHM ⟨1, 9, 30⟩ 19 30 ∧
    parseTomorrowStart ⟨1, 9, 30⟩ (.str ("soonish".toList)) = setHM ⟨1, 9, 30⟩ 19 0 :=
  ⟨(tomorrow_time_parsing ⟨1, 9, 30⟩).1 7 (by decide) (by decide),
   (tomorrow_time_parsing ⟨1, 9, 30⟩).2.2.1 12 (by decide) (by decide),
   (tomorrow_time_parsing ⟨1, 9, 30⟩).2.2.2.1 19 (by decide) 30 (by decide),
   (tomorrow_time_parsing ⟨1, 9, 30⟩).2.2.2.2.1 (.str ("soonish".toList))
     (by decide)⟩

/-!
## Claim C9
-/

/-- One unfolding step of the `while True` loop. -/
theorem nbdl_step (today : DateTime) (d : Nat) :
    nextBusinessDayLoop today d =
      if ((today.day + (d : Int)) % 7).toNat ∈ workingDays then
        { today with day := today.day + (d : Int) }
      else nextBusinessDayLoop today (d + 1) := by
  conv_lhs => unfold nextBusinessDayLoop
  simp only [weekday]
  split <;> simp_all

/-- C9: `_get_next_business_day` terminates for every current date — the
search needs at most three one-day steps — and returns the earliest
datetime strictly after today (same time of day) whose weekday is a
working day, with no skipped working day in between. -/
theorem next_business_day_spec (today : DateTime) :
    ∃ k : Nat, 1 ≤ k ∧ k ≤ 3 ∧
      (_get_next_business_day today).day = today.day + k ∧
      (_get_next_business_day today).hour = today.hour ∧
      (_get_next_business_day today).minute = today.minute ∧
      weekday (_get_next_business_day today) ∈ workingDays ∧
      ∀ j : Nat, 1 ≤ j → j < k →
        ¬(((today.day + j) % 7).toNat ∈ workingDays) := by
  have h0 : (0 : Int) ≤ today.day % 7 := Int.emod_nonneg _ (by norm_num)
  have h7 : today.day % 7 < 7 := Int.emod_lt_of_pos _ (by norm_num)
  unfold _get_next_business_day
  rcases (by omega : today.day % 7 = 0 ∨ today.day % 7 = 1 ∨ today.day % 7 = 2 ∨
      today.day % 7 = 3 ∨ today.day % 7 = 4 ∨ today.day % 7 = 5 ∨
      today.day % 7 = 6) with h | h | h | h | h | h | h
  · refine ⟨1, by omega, by omega, ?_⟩
    rw [nbdl_step, if_pos (by simp [workingDays]; omega)]
    refine ⟨by norm_num, rfl, rfl, by simp [weekday, workingDays]; omega, ?_⟩
    intro j h1 hj
    omega
  · refine ⟨1, by omega, by omega, ?_⟩
    rw [nbdl_step, if_pos (by simp [workingDays]; omega)]
    refine ⟨by norm_num, rfl, rfl, by simp [weekday, workingDays]; omega, ?_⟩
    intro j h1 hj
    omega
  · refine ⟨1, by omega, by omega, ?_⟩
    rw [nbdl_step, if_pos (by simp [workingDays]; omega)]
    refine ⟨by norm_num, rfl, rfl, by simp [weekday, workingDays]; omega, ?_⟩
    intro j h1 hj
    omega
  · refine ⟨1, by omega, by omega, ?_⟩
    rw [nbdl_step, if_pos (by simp [workingDays]; omega)]
    refine ⟨by norm_num, rfl, rfl, by simp [weekday, workingDays]; omega, ?_⟩
    intro j h1 hj
    omega
  · -- Friday: tomorrow is Saturday, then Sunday, then Monday
    refine ⟨3, by omega, by omega, ?_⟩
    rw [nbdl_step, if_neg (by simp [workingDays]; omega),
      nbdl_step, if_neg (by simp [workingDays]; omega),
      nbdl_step, if_pos (by simp [workingDays]; omega)]
    refine ⟨by push_cast; ring, rfl, rfl, by simp [weekday, workingDays]; omega, ?_⟩
    intro j h1 hj
    interval_cases j <;> simp [workingDays] <;> omega
  · -- Saturday: tomorrow is Sunday, then Monday
    refine ⟨2, by omega, by omega, ?_⟩
    rw [nbdl_step, if_neg (by simp [workingDays]; omega),
      nbdl_step, if_pos (by simp [workingDays]; omega)]
    refine ⟨by push_cast; ring, rfl, rfl, by simp [weekday, workingDays]; omega, ?_⟩
    intro j h1 hj
    interval_cases j <;> simp [workingDays] <;> omega
  · -- Sunday: tomorrow is Monday
    refine ⟨1, by omega, by omega, ?_⟩
    rw [nbdl_step, if_pos (by simp [workingDays]; omega)]
    refine ⟨by norm_num, rfl, rfl, by simp [weekday, workingDays]; omega, ?_⟩
    intro j h1 hj
    omega


/-!
## Claim C3
-/

/-- Statement helper: the freeness test of one candidate slot. -/
def slotFreePred (listing : CalListing) (dur : PyObj) : DateTime → Bool :=
  fun dt => _is_time_slot_free listing dt dur

/-- Statement helper: the combined business-day-and-free test of the
second loop. -/
def dayCandPred (listing : CalListing) (dur : PyObj) : DateTime → Bool :=
  fun dt => decide (weekday dt ∈ workingDays) && _is_time_slot_free listing dt dur

/-- The same-day loop is a take-2 of a filter over its candidates. -/
theorem scanHours_take_filter (listing : CalListing) (dur : PyObj) (base : Int) :
    ∀ (hs : List Nat) (acc : List DateTime), acc.length ≤ 1 →
      scanHours listing dur base hs acc =
        (acc ++ (hs.map (fun h => (⟨base, h, 0⟩ : DateTime))).filter
          (slotFreePred listing dur)).take 2 := by
  intro hs
  induction hs with
  | nil =>
    intro acc hacc
    unfold scanHours
    simp only [List.map_nil, List.filter_nil, List.append_nil]
    exact (List.take_of_length_le (by omega)).symm
  | cons h hs ih =>
    intro acc hacc
    unfold scanHours
    by_cases hf : slotFreePred listing dur ⟨base, h, 0⟩ = true
    · rw [if_pos (show _is_time_slot_free listing ⟨base, h, 0⟩ dur = true from hf)]
      dsimp only
      rw [List.map_cons, List.filter_cons_of_pos hf]
      by_cases hlen : 2 ≤ (acc ++ [(⟨base, h, 0⟩ : DateTime)]).length
      · rw [if_pos hlen]
        have ha2 : (acc ++ [(⟨base, h, 0⟩ : DateTime)]).length = 2 := by
          simp only [List.length_append, List.length_singleton]
          simp only [List.length_append, List.length_singleton] at hlen
          omega
        rw [show acc ++ (⟨base, h, 0⟩ : DateTime) ::
            ((hs.map (fun h => (⟨base, h, 0⟩ : DateTime))).filter
              (slotFreePred listing dur)) =
          (acc ++ [(⟨base, h, 0⟩ : DateTime)]) ++
            ((hs.map (fun h => (⟨base, h, 0⟩ : DateTime))).filter
              (slotFreePred listing dur)) from by
          simp [List.append_assoc]]
        rw [List.take_append_eq_append_take, ha2]
        simp [List.take_of_length_le (le_of_eq ha2)]
      · rw [if_neg hlen]
        have hle : (acc ++ [(⟨base, h, 0⟩ : DateTime)]).length ≤ 1 := by
          simp only [List.length_append, List.length_singleton] at hlen ⊢
          omega
        rw [ih _ hle]
        congr 1
        simp [List.append_assoc]
    · rw [if_neg (show ¬(_is_time_slot_free listing ⟨base, h, 0⟩ dur = true) from hf)]
      rw [ih _ hacc]
      congr 1
      rw [List.map_cons, List.filter_cons_of_neg (by simpa using hf)]

/-- The next-days loop is a take-2 of a filter over its candidates. -/
theorem scanDays_take_filter (listing : CalListing) (dur : PyObj) (base : Int) :
    ∀ (ks : List Nat) (acc : List DateTime), acc.length ≤ 1 →
      scanDays listing dur base ks acc =
        (acc ++ (ks.map (fun k : Nat => (⟨base + (k : Int), 14, 0⟩ : DateTime))).filter
          (dayCandPred listing dur)).take 2 := by
  intro ks
  induction ks with
  | nil =>
    intro acc hacc
    unfold scanDays
    simp only [List.map_nil, List.filter_nil, List.append_nil]
    exact (List.take_of_length_le (by omega)).symm
  | cons k ks ih =>
    intro acc hacc
    unfold scanDays
    by_cases hc : weekday (⟨base + k, 14, 0⟩ : DateTime) ∈ workingDays ∧
        _is_time_slot_free listing ⟨base + k, 14, 0⟩ dur = true
    · rw [if_pos hc]
      dsimp only
      have hp : dayCandPred listing dur ⟨base + k, 14, 0⟩ = true := by
        unfold dayCandPred
        simp only [Bool.and_eq_true, decide_eq_true_eq]
        exact hc
      rw [List.map_cons, List.filter_cons_of_pos hp]
      by_cases hlen : 2 ≤ (acc ++ [(⟨base + k, 14, 0⟩ : DateTime)]).length
      · rw [if_pos hlen]
        have ha2 : (acc ++ [(⟨base + k, 14, 0⟩ : DateTime)]).length = 2 := by
          simp only [List.length_append, List.length_singleton]
          simp only [List.length_append, List.length_singleton] at hlen
          omega
        rw [show acc ++ (⟨base + k, 14, 0⟩ : DateTime) ::
            ((ks.map (fun k : Nat => (⟨base + (k : Int), 14, 0⟩ : DateTime))).filter
              (dayCandPred listing dur)) =
          (acc ++ [(⟨base + k, 14, 0⟩ : DateTime)]) ++
            ((ks.map (fun k : Nat => (⟨base + (k : Int), 14, 0⟩ : DateTime))).filter
              (dayCandPred listing dur)) from by
          simp [List.append_assoc]]
        rw [List.take_append_eq_append_take, ha2]
        simp [List.take_of_length_le (le_of_eq ha2)]
      · rw [if_neg hlen]
        have hle : (acc ++ [(⟨base + k, 14, 0⟩ : DateTime)]).length ≤ 1 := by
          simp only [List.length_append, List.length_singleton] at hlen ⊢
          omega
        rw [ih _ hle]
        congr 1
        simp [List.append_assoc]
    · rw [if_neg hc]
      rw [ih _ hacc]
      congr 1
      have hp : ¬(dayCandPred listing dur ⟨base + k, 14, 0⟩ = true) := by
        unfold dayCandPred
        simp only [Bool.and_eq_true, decide_eq_true_eq]
        exact fun hx => hc ⟨hx.1, hx.2⟩
      rw [List.map_cons, List.filter_cons_of_neg hp]

/-- C3: `_suggest_alternative_times` is a linear scan in the fixed order
same-day hours 10, 11, 14, 15, 16 then 14:00 on the next seven days
restricted to Monday–Friday, keeping the first (at most two) free slots;
every returned alternative had an empty, successful calendar listing. -/
theorem suggest_alternatives_spec (listing : CalListing) (requested_dt : DateTime)
    (dm : PyObj) (d : Int) (hd : dm.asInt = .ok d) :
    _suggest_alternative_times listing requested_dt dm =
      ((([10, 11, 14, 15, 16].map
            (fun h => (⟨requested_dt.day, h, 0⟩ : DateTime))) ++
        (([1, 2, 3, 4, 5, 6, 7].map
            (fun k : Nat => (⟨requested_dt.day + (k : Int), 14, 0⟩ : DateTime))).filter
          (fun dt => decide (weekday dt ∈ workingDays)))).filter
        (slotFreePred listing dm)).take 2 ∧
    (_suggest_alternative_times listing requested_dt dm).length ≤ 2 ∧
    ∀ a ∈ _suggest_alternative_times listing requested_dt dm,
      listing a (addMinutes a d) = .ok [] := by
  have hfilter2 : ∀ l : List DateTime,
      (l.filter (fun dt => decide (weekday dt ∈ workingDays))).filter
        (slotFreePred listing dm) = l.filter (dayCandPred listing dm) := by
    intro l
    rw [List.filter_filter]
    apply List.filter_congr
    intro a _
    unfold dayCandPred slotFreePred
    rw [Bool.and_comm]
  have heq : _suggest_alternative_times listing requested_dt dm =
      ((([10, 11, 14, 15, 16].map
            (fun h => (⟨requested_dt.day, h, 0⟩ : DateTime))) ++
        (([1, 2, 3, 4, 5, 6, 7].map
            (fun k : Nat => (⟨requested_dt.day + (k : Int), 14, 0⟩ : DateTime))).filter
          (fun dt => decide (weekday dt ∈ workingDays)))).filter
        (slotFreePred listing dm)).take 2 := by
    unfold _suggest_alternative_times
    dsimp only
    rw [scanHours_take_filter listing dm requested_dt.day [10, 11, 14, 15, 16] []
      (by simp), List.nil_append, List.filter_append, hfilter2]
    set F1 := ([10, 11, 14, 15, 16].map
      (fun h => (⟨requested_dt.day, h, 0⟩ : DateTime))).filter
        (slotFreePred listing dm) with hF1
    set F2 := ([1, 2, 3, 4, 5, 6, 7].map
      (fun k : Nat => (⟨requested_dt.day + (k : Int), 14, 0⟩ : DateTime))).filter
        (dayCandPred listing dm) with hF2
    by_cases hA : 2 ≤ F1.length
    · rw [if_pos (by rw [List.length_take]; omega)]
      rw [List.take_append_eq_append_take,
        show 2 - F1.length = 0 from by omega]
      simp
    · push_neg at hA
      have h1 : F1.length ≤ 1 := by omega
      rw [if_neg (by rw [List.length_take]; omega)]
      rw [List.take_of_length_le (show F1.length ≤ 2 from by omega)]
      rw [scanDays_take_filter listing dm requested_dt.day [1, 2, 3, 4, 5, 6, 7]
        F1 h1]
      rw [List.take_take, ← hF2]
      norm_num
  refine ⟨heq, ?_, ?_⟩
  · rw [heq]
    exact List.length_take_le 2 _
  · intro a ha
    rw [heq] at ha
    have hmem := List.mem_of_mem_take ha
    have hfree : slotFreePred listing dm a = true := (List.mem_filter.mp hmem).2
    unfold slotFreePred _is_time_slot_free at hfree
    rw [hd, exc_bind_ok] at hfree
    cases hl : listing a (addMinutes a d) with
    | error u => rw [hl] at hfree; cases hfree
    | ok items =>
      rw [hl] at hfree
      simp only [decide_eq_true_eq] at hfree
      rw [List.length_eq_zero.mp hfree]

/-- Witness for C3 with a calendar that is free everywhere: the first
two same-day candidates are returned. -/
theorem suggest_alternatives_spec_witness :
    _suggest_alternative_times (fun _ _ => .ok []) ⟨0, 13, 0⟩ (.num 30) =
      [⟨0, 10, 0⟩, ⟨0, 11, 0⟩] := by
  have h := (suggest_alternatives_spec (fun _ _ => .ok []) ⟨0, 13, 0⟩
    (.num 30) 30 rfl).1
  rw [h]
  rfl

/-!
## Claim C2
-/

/-- `check_calendar_availability_dt` on a successful listing. -/
theorem check_dt_of_listing (listing : CalListing) (s : DateTime) (dm : PyObj)
    (d : Int) (evs : List Unit)
    (hd : dm.asInt = .ok d)
    (hl : listing s (addMinutes s d) = .ok evs) :
    check_calendar_availability_dt listing s dm =
      (if evs.length = 0 then (true, [])
       else (false, _suggest_alternative_times listing s dm)) := by
  unfold check_calendar_availability_dt
  rw [hd, exc_bind_ok, hl, exc_bind_ok]
  by_cases he : evs.length = 0
  · rw [if_pos he, if_pos he]
    rfl
  · rw [if_neg he, if_neg he]
    rfl

/-- C2: `create_meeting_if_available` inserts a calendar event and
returns success with the confirmation message exactly when the calendar
listing for the requested start time and duration has no events; on a
conflict nothing is inserted and it returns failure with the
alternative-slot text, or the no-alternatives message when the
alternative list is empty. -/
theorem create_meeting_exactly_when_free
    (now : DateTime) (dparse : PyStr → Except Unit DateTime) (listing : CalListing)
    (insertEvent : CalEvent → Except Unit Unit)
    (llmTitle llmTopic : PyStr → Except Unit PyStr)
    (mr : MeetingRequest) (sender_email : PyStr)
    (email_subject email_body : Option PyStr)
    (s : DateTime) (d : Int) (evs : List Unit) (subj : PyStr) (atts : List PyObj)
    (catts : List PyStr)
    (hS : determineStart now dparse mr = .ok s)
    (hd : mr.duration_minutes.asInt = .ok d)
    (hl : listing s (addMinutes s d) = .ok evs)
    (hatt : mr.attendees.asList = .ok atts)
    (hcoll : collectAttendees atts = .ok catts)
    (hsubj : _generate_meeting_subject llmTitle llmTopic mr sender_email
      email_subject email_body = .ok subj)
    (hins : ∀ e, insertEvent e = .ok ()) :
    ((create_meeting_if_available now dparse listing insertEvent llmTitle
        llmTopic mr sender_email email_subject email_body).inserted ≠ [] ↔
      evs = []) ∧
    (evs = [] →
      create_meeting_if_available now dparse listing insertEvent llmTitle
          llmTopic mr sender_email email_subject email_body =
        { created := true
          msg := "Meeting scheduled for ".toList ++ strftimeLong s
          inserted := [{ summary := subj
                         description :=
                           "Meeting requested via email.\n\nOriginal request: ".toList ++
                             pyStrOf mr.purpose ++ "\nEmail subject: ".toList ++
                             strOfOpt email_subject
                         start := s
                         endTime := addMinutes s d
                         attendees := (if Py.strTruthy sender_email then
                           [cleanAddress sender_email] else []) ++ catts }] }) ∧
    (evs ≠ [] →
      create_meeting_if_available now dparse listing insertEvent llmTitle
          llmTopic mr sender_email email_subject email_body =
        { created := false
          msg :=
            if _suggest_alternative_times listing s mr.duration_minutes = [] then
              "No suitable alternative times found this week.".toList
            else
              "The requested time is not available. Here are some alternatives:\n".toList ++
                altText (_suggest_alternative_times listing s mr.duration_minutes)
          inserted := [] }) := by
  have hmain : create_meeting_if_available now dparse listing insertEvent llmTitle
      llmTopic mr sender_email email_subject email_body =
    (if evs = [] then
      { created := true
        msg := "Meeting scheduled for ".toList ++ strftimeLong s
        inserted := [{ summary := subj
                       description :=
                         "Meeting requested via email.\n\nOriginal request: ".toList ++
                           pyStrOf mr.purpose ++ "\nEmail subject: ".toList ++
                           strOfOpt email_subject
                       start := s
                       endTime := addMinutes s d
                       attendees := (if Py.strTruthy sender_email then
                         [cleanAddress sender_email] else []) ++ catts }] }
     else
      { created := false
        msg :=
          if _suggest_alternative_times listing s mr.duration_minutes = [] then
            "No suitable alternative times found this week.".toList
          else
            "The requested time is not available. Here are some alternatives:\n".toList ++
              altText (_suggest_alternative_times listing s mr.duration_minutes)
        inserted := [] }) := by
    unfold create_meeting_if_available
    rw [hS, exc_bind_ok]
    dsimp only
    rw [check_dt_of_listing listing s mr.duration_minutes d evs hd hl]
    by_cases he : evs = []
    · have hlen : evs.length = 0 := by simp [he]
      rw [if_pos hlen]
      rw [if_pos (show ((true, ([] : List DateTime)).fst = true) from rfl)]
      rw [hd, exc_bind_ok, hatt, exc_bind_ok, hcoll, exc_bind_ok, hsubj,
        exc_bind_ok, hins, exc_bind_ok]
      rw [if_pos he]
      rfl
    · have hlen : ¬(evs.length = 0) := by simp [he]
      rw [if_neg hlen]
      rw [if_neg (show ¬((false,
        _suggest_alternative_times listing s mr.duration_minutes).fst = true) from
        by simp)]
      rw [if_neg he]
      by_cases halt : _suggest_alternative_times listing s mr.duration_minutes = []
      · rw [if_neg (show ¬((false,
          _suggest_alternative_times listing s mr.duration_minutes).snd ≠ []) from
          by simp [halt])]
        rw [if_pos halt]
        rfl
      · rw [if_pos (show ((false,
          _suggest_alternative_times listing s mr.duration_minutes).snd ≠ []) from
          by simp [halt])]
        rw [if_neg halt]
        rfl
  refine ⟨?_, ?_, ?_⟩
  · rw [hmain]
    by_cases he : evs = []
    · rw [if_pos he]
      simp [he]
    · rw [if_neg he]
      simp [he]
  · intro he
    rw [hmain, if_pos he]
  · intro he
    rw [hmain, if_neg he]

/-- Witness for C2: a free calendar books tomorrow 19:00 and a busy one
does not insert and proposes alternatives. -/
theorem create_meeting_exactly_when_free_witness :
    create_meeting_if_available ⟨0, 9, 0⟩ (fun _ => .error ()) (fun _ _ => .ok [])
      (fun _ => .ok ()) (fun _ => .error ()) (fun _ => .error ())
      ⟨.str [], .str ("tomorrow".toList), .str ("19:00".toList), .num 30, .list []⟩
      ("jane@x.com".toList) Option.none Option.none =
      { created := true
        msg := ("Meeting scheduled for January 02, 2001 at 07:00 PM".toList)
        inserted := [{ summary := ("Meeting with Jane".toList)
                       description :=
                         ("Meeting requested via email.\n\nOriginal request: \nEmail subject: None".toList)
                       start := ⟨1, 19, 0⟩
                       endTime := ⟨1, 19, 30⟩
                       attendees := [("jane@x.com".toList)] }] } := by
  have h := (create_meeting_exactly_when_free ⟨0, 9, 0⟩ (fun _ => .error ())
    (fun _ _ => .ok []) (fun _ => .ok ()) (fun _ => .error ()) (fun _ => .error ())
    ⟨.str [], .str ("tomorrow".toList), .str ("19:00".toList), .num 30, .list []⟩
    ("jane@x.com".toList) Option.none Option.none
    ⟨1, 19, 0⟩ 30 [] ("Meeting with Jane".toList) [] []
    rfl rfl rfl rfl rfl rfl (fun _ => rfl)).2.1 rfl
  rw [h]
  rfl
